import Mathlib

/-!
Shallow embedding of the traffic-simulation core of this repository
(`DirectedRoad`, `Intersection`, `SimulationEngine`), translated from the
TypeScript source.  Densities and flow amounts are modelled as exact
rationals (`ℚ`); JavaScript numbers in the source are IEEE doubles, and the
decimal literals involved (0.1, 0.5, 2.0, 7.0) are treated as the exact
rationals they denote.  Object references (a road shared between the engine
list and two intersections) are modelled by stable structured road
identifiers plus lookup in the engine's road list; the string identifiers
`"R_E_r_c"` / `"r-c"` of the source are modelled by the injective structured
encodings `RoadId` / `NodeId`.  `Math.random() < inflowRate` draws are
modelled by an explicit per-road boolean oracle passed to `step`.
-/

namespace Traffic

/-- Cardinal directions, the keys of the source's `inRoads`/`outRoads`
records. -/
inductive Dir : Type
  | N | S | E | W
deriving DecidableEq, Repr

/-- Structured road identifier: the source id string `R_{dir}_{r}_{c}` is
encoded injectively as the triple of its direction letter and the two loop
indices that minted it. -/
structure RoadId : Type where
  dir : Dir
  row : ℕ
  col : ℕ
deriving DecidableEq, Repr

/-- Structured intersection identifier: the source id string `"r-c"`. -/
abbrev NodeId : Type := ℕ × ℕ

/-- `PHYSICS.ROAD_LENGTH_CELLS` from `constants.ts`. -/
def ROAD_LENGTH_CELLS : ℕ := 10

/-- `PHYSICS.MAX_CARS_PER_CELL` from `constants.ts`. -/
def MAX_CARS_PER_CELL : ℚ := 7

/-- `PHYSICS.WAVE_SPEED` from `constants.ts`. -/
def WAVE_SPEED : ℚ := 1

/-- `PHYSICS.MIN_GREEN_STEPS` from `constants.ts`. -/
def MIN_GREEN_STEPS : ℕ := 3

/-- `PHYSICS.MAX_RED_STEPS` from `constants.ts`. -/
def MAX_RED_STEPS : ℕ := 24

/-- `PHYSICS.FIXED_CYCLE_STEPS` from `constants.ts`. -/
def FIXED_CYCLE_STEPS : ℕ := 6

/-- The state of one `DirectedRoad` object. -/
structure RoadState : Type where
  id : RoadId
  u : NodeId
  v : NodeId
  cells : List ℚ
  isBoundary : Bool
deriving DecidableEq, Repr

/-- The state of one `Intersection` object.  The direction-keyed records
`inRoads` / `outRoads` are association lists holding road identifiers. -/
structure InterState : Type where
  id : NodeId
  row : ℕ
  col : ℕ
  inRoads : List (Dir × RoadId)
  outRoads : List (Dir × RoadId)
  phase : ℕ
  phaseTimer : ℕ
deriving DecidableEq, Repr

/-- `ControlMode` from `types.ts`. -/
inductive ControlMode : Type
  | FIXED | SMART
deriving DecidableEq, Repr

/-- The state of a `SimulationEngine` object.  `rows`/`cols` are kept as
integers because the TypeScript constructor accepts any number; the build
loops `for (let r = 0; r < rows; ...)` iterate `max rows 0` times, which the
embedding renders with `Int.toNat`. -/
structure Engine : Type where
  roads : List RoadState
  inters : List InterState
  totalThroughput : ℚ
  stepCount : ℕ
  mode : ControlMode
  rows : ℤ
  cols : ℤ
  inflowRate : ℚ
deriving DecidableEq, Repr

/-! ### DirectedRoad operations -/

/-- `this.cells[this.cells.length - 1]` (the downstream-most cell). -/
def lastCell (cells : List ℚ) : ℚ := cells.getD (cells.length - 1) 0

/-- `DirectedRoad.getDemand`. -/
def getDemand (r : RoadState) : ℚ :=
  min (WAVE_SPEED * lastCell r.cells) MAX_CARS_PER_CELL

/-- `DirectedRoad.getSupply`. -/
def getSupply (r : RoadState) : ℚ :=
  max 0 (MAX_CARS_PER_CELL - r.cells.getD 0 0)

/-- `DirectedRoad.getTotalCars`. -/
def getTotalCars (r : RoadState) : ℚ := r.cells.sum

/-- `DirectedRoad.getStoppedQueue`: sum of the cells whose density exceeds
2.0. -/
def getStoppedQueue (r : RoadState) : ℚ :=
  (r.cells.filter (fun c => decide (2 < c))).sum

/-- The flux of the CTM loop body:
`Math.min(this.cells[i], PHYSICS.MAX_CARS_PER_CELL - this.cells[i + 1])`,
always read from the frozen snapshot `frozen`. -/
def ctmFlux (frozen : List ℚ) (i : ℕ) : ℚ :=
  min (frozen.getD i 0) (MAX_CARS_PER_CELL - frozen.getD (i + 1) 0)

/-- One iteration of the CTM loop body acting on the accumulator `newCells`:
`newCells[i] -= flux; newCells[i + 1] += flux`. -/
def ctmStep (frozen : List ℚ) (acc : List ℚ) (i : ℕ) : List ℚ :=
  let flux := ctmFlux frozen i
  (acc.set i (acc.getD i 0 - flux)).set (i + 1) (acc.getD (i + 1) 0 + flux)

/-- The internal propagation loop of `DirectedRoad.stepPhysics`:
`for (let i = this.cells.length - 2; i >= 0; i--) ...`, i.e. the indices
`cells.length - 2, …, 1, 0` in descending order, fluxes read from the frozen
array `this.cells`, updates applied to the copy `newCells` (initially equal
to the frozen array). -/
def ctmPropagate (frozen : List ℚ) : List ℚ :=
  ((List.range (frozen.length - 1)).reverse).foldl (ctmStep frozen) frozen

/-- `DirectedRoad.stepPhysics(flowIn, flowOut)` acting on the cell list:
clamped boundary outflow on the last cell, inflow added to the first cell,
then the internal CTM propagation over the resulting frozen snapshot. -/
def stepPhysics (cells : List ℚ) (flowIn flowOut : ℚ) : List ℚ :=
  let n := cells.length
  let c1 := cells.set (n - 1) (max 0 (cells.getD (n - 1) 0 - flowOut))
  let c2 := c1.set 0 (c1.getD 0 0 + flowIn)
  ctmPropagate c2

/-! ### Intersection operations -/

/-- Find the road object with the given id in the engine's road list
(modelling the object reference the source stores directly). -/
def findRoad (roads : List RoadState) (rid : RoadId) : Option RoadState :=
  roads.find? (fun r => r.id == rid)

/-- Resolve a direction slot of an `inRoads`/`outRoads` record to the road
object it references. -/
def slotRoad (roads : List RoadState) (slots : List (Dir × RoadId))
    (d : Dir) : Option RoadState :=
  match slots.lookup d with
  | none => none
  | some rid => findRoad roads rid

/-- `Intersection.getPressure`.  The subtraction of the opposing outgoing
road's load is nested inside the check that the incoming road exists,
exactly as in the source. -/
def getPressure (roads : List RoadState) (node : InterState) : ℚ × ℚ :=
  let p_ns : ℚ :=
    (match slotRoad roads node.inRoads .N with
      | none => 0
      | some rin =>
        getStoppedQueue rin -
          (match slotRoad roads node.outRoads .S with
            | none => 0
            | some rout => getTotalCars rout * (1/2))) +
    (match slotRoad roads node.inRoads .S with
      | none => 0
      | some rin =>
        getStoppedQueue rin -
          (match slotRoad roads node.outRoads .N with
            | none => 0
            | some rout => getTotalCars rout * (1/2)))
  let p_ew : ℚ :=
    (match slotRoad roads node.inRoads .E with
      | none => 0
      | some rin =>
        getStoppedQueue rin -
          (match slotRoad roads node.outRoads .W with
            | none => 0
            | some rout => getTotalCars rout * (1/2))) +
    (match slotRoad roads node.inRoads .W with
      | none => 0
      | some rin =>
        getStoppedQueue rin -
          (match slotRoad roads node.outRoads .E with
            | none => 0
            | some rout => getTotalCars rout * (1/2)))
  (max (1/10) p_ns, max (1/10) p_ew)

/-- One element of the transfer list produced by `Intersection.stepFlow`.
`tgt = none` is the `'EXIT'` sentinel. -/
structure Transfer : Type where
  src : RoadId
  tgt : Option RoadId
  amount : ℚ
deriving DecidableEq, Repr

/-- The `targetMap` of `Intersection.stepFlow`: coming from North means
heading South, etc. -/
def targetMap : Dir → Dir
  | .N => .S
  | .S => .N
  | .E => .W
  | .W => .E

/-- `this.phase === 0 ? ['N', 'S'] : ['E', 'W']`. -/
def allowedDirs (phase : ℕ) : List Dir :=
  if phase = 0 then [.N, .S] else [.E, .W]

/-- The transfer (if any) that `Intersection.stepFlow` emits for one allowed
source direction `d`.  A missing incoming slot yields no transfer
(`continue`); a missing opposite outgoing slot yields an uncapped `'EXIT'`
transfer of the full demand; otherwise the flow `min(demand, supply)` is
emitted only if strictly positive. -/
def dirTransfer (roads : List RoadState) (node : InterState) (d : Dir) :
    Option Transfer :=
  match slotRoad roads node.inRoads d with
  | none => none
  | some source =>
    let demand := getDemand source
    match slotRoad roads node.outRoads (targetMap d) with
    | none => some ⟨source.id, none, demand⟩
    | some target =>
      let flow := min demand (getSupply target)
      if 0 < flow then some ⟨source.id, some target.id, flow⟩ else none

/-- `Intersection.stepFlow`. -/
def stepFlow (roads : List RoadState) (node : InterState) : List Transfer :=
  (allowedDirs node.phase).filterMap (dirTransfer roads node)

/-- The per-intersection part of phase 1 of `SimulationEngine.step`:
increment the phase timer, then apply the mode's transition rule. -/
def updateSignal (mode : ControlMode) (roads : List RoadState)
    (node : InterState) : InterState :=
  let node := { node with phaseTimer := node.phaseTimer + 1 }
  match mode with
  | .FIXED =>
    if FIXED_CYCLE_STEPS ≤ node.phaseTimer then
      { node with phase := 1 - node.phase, phaseTimer := 0 }
    else node
  | .SMART =>
    if MAX_RED_STEPS ≤ node.phaseTimer then
      { node with phase := 1 - node.phase, phaseTimer := 0 }
    else if MIN_GREEN_STEPS ≤ node.phaseTimer then
      let p := getPressure roads node
      if node.phase = 0 ∧ p.1 < p.2 then
        { node with phase := 1, phaseTimer := 0 }
      else if node.phase = 1 ∧ p.2 < p.1 then
        { node with phase := 0, phaseTimer := 0 }
      else node
    else node

/-! ### SimulationEngine -/

/-- All transfers of a tick: `stepFlow` of every intersection, collected in
iteration order. -/
def tickTransfers (roads : List RoadState) (inters : List InterState) :
    List Transfer :=
  inters.flatMap (stepFlow roads)

/-- `inflows[r.id]`: the sum of the amounts of the tick's transfers whose
destination is the road `rid`. -/
def aggInflow (ts : List Transfer) (rid : RoadId) : ℚ :=
  ((ts.filter (fun t => t.tgt == some rid)).map Transfer.amount).sum

/-- `outflows[r.id]`: the sum of the amounts of the tick's transfers whose
source is the road `rid`. -/
def aggOutflow (ts : List Transfer) (rid : RoadId) : ℚ :=
  ((ts.filter (fun t => t.src == rid)).map Transfer.amount).sum

/-- The throughput added in a tick: the amounts of the transfers whose
destination is the `'EXIT'` sentinel. -/
def exitAmount (ts : List Transfer) : ℚ :=
  ((ts.filter (fun t => t.tgt == (none : Option RoadId))).map
    Transfer.amount).sum

/-- Phase 4 of `SimulationEngine.step`: entry detection.  The source tests
`r.id.includes("R_E")` etc.; on the ids the engine mints this is exactly the
direction component of the structured id. -/
def isEntryRoad (inters : List InterState) (r : RoadState) : Bool :=
  match inters.find? (fun n => n.id == r.u) with
  | none => false
  | some uNode =>
    (r.id.dir == .E && (uNode.inRoads.lookup .W).isNone) ||
    (r.id.dir == .W && (uNode.inRoads.lookup .E).isNone) ||
    (r.id.dir == .S && (uNode.inRoads.lookup .N).isNone) ||
    (r.id.dir == .N && (uNode.inRoads.lookup .S).isNone)

/-- Phase 4 of `SimulationEngine.step`: stochastic entry injection for one
road, with `rand r.id` standing for `Math.random() < this.inflowRate`. -/
def spawn (inters : List InterState) (rand : RoadId → Bool)
    (r : RoadState) : RoadState :=
  if isEntryRoad inters r && decide (r.cells.getD 0 0 < 2) && rand r.id then
    { r with cells := r.cells.set 0 (r.cells.getD 0 0 + 2) }
  else r

/-- `SimulationEngine.step`, with the per-road random draws supplied by the
oracle `rand`. -/
def step (e : Engine) (rand : RoadId → Bool) : Engine :=
  let inters1 := e.inters.map (updateSignal e.mode e.roads)
  let ts := tickTransfers e.roads inters1
  let roads1 := e.roads.map (fun r =>
    { r with cells := stepPhysics r.cells (aggInflow ts r.id) (aggOutflow ts r.id) })
  let roads2 := roads1.map (spawn inters1 rand)
  { e with
    roads := roads2
    inters := inters1
    totalThroughput := e.totalThroughput + exitAmount ts
    stepCount := e.stepCount + 1 }

/-- Record assignment `slots[d] = rid` for the direction-keyed records. -/
def setSlot (slots : List (Dir × RoadId)) (d : Dir) (rid : RoadId) :
    List (Dir × RoadId) :=
  (d, rid) :: slots.filter (fun p => !(p.1 == d))

/-- In-place update of the intersection with id `nid` in the engine's
intersection collection. -/
def modifyNode (inters : List InterState) (nid : NodeId)
    (f : InterState → InterState) : List InterState :=
  inters.map (fun n => if n.id == nid then f n else n)

/-- The horizontal (East–West) connection block of `buildGrid` for one
`(r, c)` pair, executed when `c < cols - 1`. -/
def connectHoriz (cols : ℕ)
    (st : List InterState × List RoadState) (rc : ℕ × ℕ) :
    List InterState × List RoadState :=
  let r := rc.1
  let c := rc.2
  if c + 1 < cols then
    let rid1 : RoadId := ⟨.E, r, c⟩
    let rid2 : RoadId := ⟨.W, r, c⟩
    let road1 : RoadState :=
      ⟨rid1, (r, c), (r, c + 1), List.replicate ROAD_LENGTH_CELLS 0,
        decide (c = 0)⟩
    let road2 : RoadState :=
      ⟨rid2, (r, c + 1), (r, c), List.replicate ROAD_LENGTH_CELLS 0,
        decide (c + 1 = cols - 1)⟩
    let inters := modifyNode st.1 (r, c) (fun u =>
      { u with outRoads := setSlot u.outRoads .E rid1,
               inRoads := setSlot u.inRoads .E rid2 })
    let inters := modifyNode inters (r, c + 1) (fun v =>
      { v with inRoads := setSlot v.inRoads .W rid1,
               outRoads := setSlot v.outRoads .W rid2 })
    (inters, st.2 ++ [road1, road2])
  else st

/-- The vertical (North–South) connection block of `buildGrid` for one
`(r, c)` pair, executed when `r < rows - 1`. -/
def connectVert (rows : ℕ)
    (st : List InterState × List RoadState) (rc : ℕ × ℕ) :
    List InterState × List RoadState :=
  let r := rc.1
  let c := rc.2
  if r + 1 < rows then
    let rid1 : RoadId := ⟨.S, r, c⟩
    let rid2 : RoadId := ⟨.N, r, c⟩
    let road1 : RoadState :=
      ⟨rid1, (r, c), (r + 1, c), List.replicate ROAD_LENGTH_CELLS 0,
        decide (r = 0)⟩
    let road2 : RoadState :=
      ⟨rid2, (r + 1, c), (r, c), List.replicate ROAD_LENGTH_CELLS 0,
        decide (r + 1 = rows - 1)⟩
    let inters := modifyNode st.1 (r, c) (fun u =>
      { u with outRoads := setSlot u.outRoads .S rid1,
               inRoads := setSlot u.inRoads .S rid2 })
    let inters := modifyNode inters (r + 1, c) (fun v =>
      { v with inRoads := setSlot v.inRoads .N rid1,
               outRoads := setSlot v.outRoads .N rid2 })
    (inters, st.2 ++ [road1, road2])
  else st

/-- The body of the road-connecting double loop of
`SimulationEngine.buildGrid` for one `(r, c)` pair: the horizontal
connection when `c < cols - 1` followed by the vertical connection when
`r < rows - 1`. -/
def connectAt (rows cols : ℕ)
    (st : List InterState × List RoadState) (rc : ℕ × ℕ) :
    List InterState × List RoadState :=
  connectVert rows (connectHoriz cols st rc) rc

/-- The `(r, c)` pairs visited by the nested loops of `buildGrid`, in
row-major order. -/
def gridPairs (rows cols : ℕ) : List (ℕ × ℕ) :=
  (List.range rows).flatMap (fun r => (List.range cols).map (fun c => (r, c)))

/-- The intersection-creating first loop of `SimulationEngine.buildGrid`. -/
def initInters (rows cols : ℕ) : List InterState :=
  (gridPairs rows cols).map (fun rc => ⟨rc, rc.1, rc.2, [], [], 0, 0⟩)

/-- `SimulationEngine.buildGrid`. -/
def buildGrid (rows cols : ℕ) : List InterState × List RoadState :=
  (gridPairs rows cols).foldl (connectAt rows cols) (initInters rows cols, [])

/-- The `SimulationEngine` constructor: it stores its four parameters and
builds the grid; it performs no validation of any kind. -/
def mkEngine (rows cols : ℤ) (inflowRate : ℚ) (mode : ControlMode) : Engine :=
  let grid := buildGrid rows.toNat cols.toNat
  { roads := grid.2
    inters := grid.1
    totalThroughput := 0
    stepCount := 0
    mode := mode
    rows := rows
    cols := cols
    inflowRate := inflowRate }

/-- Advance the engine through a list of ticks, one random oracle per
tick. -/
def runSteps (e : Engine) : List (RoadId → Bool) → Engine
  | [] => e
  | rand :: rest => runSteps (step e rand) rest

/-! ### Snapshot -/

/-- `RoadData` from `types.ts`. -/
structure RoadData : Type where
  id : RoadId
  u : NodeId
  v : NodeId
  cells : List ℚ
  totalCars : ℚ
  stoppedQueue : ℚ
  isBoundary : Bool
deriving DecidableEq, Repr

/-- `IntersectionData` from `types.ts`. -/
structure IntersectionData : Type where
  id : NodeId
  phase : ℕ
  row : ℕ
  col : ℕ
deriving DecidableEq, Repr

/-- `SimulationStats` from `types.ts`. -/
structure SimulationStats : Type where
  step : ℕ
  totalCars : ℚ
  stoppedCars : ℚ
  throughput : ℚ
deriving DecidableEq, Repr

/-- `SimulationSnapshot` from `types.ts`. -/
structure SimulationSnapshot : Type where
  roads : List RoadData
  intersections : List IntersectionData
  stats : SimulationStats
deriving DecidableEq, Repr

/-- `SimulationEngine.getSnapshot`. -/
def getSnapshot (e : Engine) : SimulationSnapshot :=
  { roads := e.roads.map (fun r =>
      { id := r.id
        u := r.u
        v := r.v
        cells := r.cells
        totalCars := getTotalCars r
        stoppedQueue := getStoppedQueue r
        isBoundary := r.isBoundary })
    intersections := e.inters.map (fun i =>
      { id := i.id, phase := i.phase, row := i.row, col := i.col })
    stats :=
      { step := e.stepCount
        totalCars := (e.roads.map getTotalCars).sum
        stoppedCars := (e.roads.map getStoppedQueue).sum
        throughput := e.totalThroughput } }

/-- The transfer list a call to `step` collects for the tick: `stepFlow` of
every intersection after the signal update, computed against the pre-physics
roads.  `step` uses exactly this list (see `step_transfers_spec`). -/
def stepTransfers (e : Engine) : List Transfer :=
  tickTransfers e.roads (e.inters.map (updateSignal e.mode e.roads))

/-- A road with its boundary flag cleared. -/
def stripRoad (r : RoadState) : RoadState := { r with isBoundary := false }

/-- The engine with every road's boundary flag cleared: the full observable
state (cells, phases, timers, tick count, throughput) minus the flags. -/
def stripB (e : Engine) : Engine :=
  { e with roads := e.roads.map stripRoad }

/-- Modelled from the spec: the contribution of one incoming direction to an
axis pressure — the incoming road's queued load minus half the total cars of
the opposing outgoing road, with a missing direction contributing
nothing. -/
def pairContribution (roads : List RoadState) (node : InterState)
    (din : Dir) : ℚ :=
  match slotRoad roads node.inRoads din with
  | none => 0
  | some rin =>
    getStoppedQueue rin -
      (match slotRoad roads node.outRoads (targetMap din) with
        | none => 0
        | some rout => getTotalCars rout / 2)

/-- Modelled from the spec: the pressure pair as the floored sums of the
per-direction contributions of each axis. -/
def pressureSpec (roads : List RoadState) (node : InterState) : ℚ × ℚ :=
  (max (1/10) (([Dir.N, Dir.S].map (pairContribution roads node)).sum),
   max (1/10) (([Dir.E, Dir.W].map (pairContribution roads node)).sum))

/-- Scenario C source road: 10 cells, last cell density 7 (at max density),
about to send through its downstream intersection. -/
def scenSrc : RoadState :=
  ⟨⟨.N, 0, 0⟩, (1, 0), (0, 0), [0, 0, 0, 0, 0, 0, 0, 0, 0, 7], false⟩

/-- Scenario C downstream road: fully empty. -/
def scenTgt : RoadState :=
  ⟨⟨.S, 0, 0⟩, (0, 0), (1, 0), List.replicate 10 0, false⟩

/-- Scenario C intersection: NS phase green, the source road incoming from
N, the target road the directly opposite outgoing road. -/
def scenNode : InterState :=
  ⟨(0, 0), 0, 0, [(.N, scenSrc.id)], [(.S, scenTgt.id)], 0, 0⟩

/-! ### List helper lemmas -/

lemma getD_set (l : List ℚ) (i : ℕ) (v : ℚ) (p : ℕ) :
    (l.set i v).getD p 0 = if p = i ∧ i < l.length then v else l.getD p 0 := by
  simp only [List.getD_eq_getElem?_getD, List.getElem?_set]
  rcases eq_or_ne p i with heq | hne
  · by_cases h2 : i < l.length
    · simp [heq, h2]
    · simp [heq, h2, List.getElem?_eq_none (le_of_not_lt h2)]
  · simp [hne, Ne.symm hne]

lemma getD_outside (l : List ℚ) (p : ℕ) (h : l.length ≤ p) : l.getD p 0 = 0 := by
  simp [List.getD_eq_getElem?_getD, List.getElem?_eq_none h]

lemma eq_of_getD_eq (l1 l2 : List ℚ) (hlen : l1.length = l2.length)
    (h : ∀ p, l1.getD p 0 = l2.getD p 0) : l1 = l2 := by
  apply List.ext_getElem hlen
  intro i h1 h2
  have hp := h i
  rwa [List.getD_eq_getElem _ _ h1, List.getD_eq_getElem _ _ h2] at hp

lemma sum_set' (l : List ℚ) (i : ℕ) (v : ℚ) (h : i < l.length) :
    (l.set i v).sum = l.sum - l.getD i 0 + v := by
  induction l generalizing i with
  | nil => simp at h
  | cons a t ih =>
    cases i with
    | zero => simp [List.sum_cons]; ring
    | succ j =>
      have hj : j < t.length := by simpa using h
      simp only [List.set_cons_succ, List.sum_cons, ih j hj, List.getD_cons_succ]
      ring

/-! ### CTM propagation: pointwise characterization -/

/-- The additive effect of the loop iteration at index `i` on position `p`
of a list of length `n`. -/
def deltaAt (frozen : List ℚ) (n : ℕ) (i p : ℕ) : ℚ :=
  (if p = i ∧ i < n then -(ctmFlux frozen i) else 0) +
  (if p = i + 1 ∧ i + 1 < n then ctmFlux frozen i else 0)

lemma ctmStep_length (frozen acc : List ℚ) (i : ℕ) :
    (ctmStep frozen acc i).length = acc.length := by
  simp [ctmStep]

lemma ctmStep_getD (frozen acc : List ℚ) (i p : ℕ) :
    (ctmStep frozen acc i).getD p 0 =
      acc.getD p 0 + deltaAt frozen acc.length i p := by
  simp only [ctmStep, deltaAt, getD_set, List.length_set]
  by_cases h1 : p = i + 1 ∧ i + 1 < acc.length
  · rw [if_pos h1, if_pos h1, if_neg (by omega : ¬(p = i ∧ i < acc.length)), h1.1]
    ring
  · rw [if_neg h1, if_neg h1]
    by_cases h2 : p = i ∧ i < acc.length
    · rw [if_pos h2, if_pos h2, h2.1]
      ring
    · rw [if_neg h2, if_neg h2]
      ring

lemma foldl_ctmStep_length (frozen : List ℚ) (order : List ℕ) :
    ∀ (acc : List ℚ), (order.foldl (ctmStep frozen) acc).length = acc.length := by
  induction order with
  | nil => intro acc; rfl
  | cons i rest ih => intro acc; rw [List.foldl_cons, ih, ctmStep_length]

lemma foldl_ctmStep_getD (frozen : List ℚ) (order : List ℕ) :
    ∀ (acc : List ℚ) (p : ℕ),
      (order.foldl (ctmStep frozen) acc).getD p 0 =
        acc.getD p 0 + (order.map (fun i => deltaAt frozen acc.length i p)).sum := by
  induction order with
  | nil => simp
  | cons i rest ih =>
    intro acc p
    rw [List.foldl_cons, ih, ctmStep_getD, ctmStep_length]
    simp only [List.map_cons, List.sum_cons]
    ring

lemma deltaAt_sum (frozen : List ℚ) (n p : ℕ) : ∀ (m : ℕ),
    ((List.range m).map (fun i => deltaAt frozen n i p)).sum =
      (if p < m ∧ p < n then -(ctmFlux frozen p) else 0) +
      (if 1 ≤ p ∧ p ≤ m ∧ p < n then ctmFlux frozen (p - 1) else 0) := by
  intro m
  induction m with
  | zero =>
    simp only [List.range_zero, List.map_nil, List.sum_nil]
    rw [if_neg (by omega : ¬(p < 0 ∧ p < n)),
      if_neg (by omega : ¬(1 ≤ p ∧ p ≤ 0 ∧ p < n))]
    ring
  | succ m ih =>
    rw [List.range_succ, List.map_append, List.sum_append, ih]
    simp only [List.map_cons, List.map_nil, List.sum_cons, List.sum_nil, add_zero]
    unfold deltaAt
    rcases Nat.lt_trichotomy p m with hlt | rfl | hgt
    · rw [if_neg (by omega : ¬(p = m ∧ m < n)),
        if_neg (by omega : ¬(p = m + 1 ∧ m + 1 < n)),
        if_congr (show (p < m + 1 ∧ p < n) ↔ (p < m ∧ p < n) by omega) rfl rfl,
        if_congr (show (1 ≤ p ∧ p ≤ m + 1 ∧ p < n) ↔ (1 ≤ p ∧ p ≤ m ∧ p < n) by
          omega) rfl rfl]
      ring
    · rw [if_neg (by omega : ¬(p < p ∧ p < n)),
        if_neg (by omega : ¬(p = p + 1 ∧ p + 1 < n)),
        if_congr (show (p = p ∧ p < n) ↔ (p < n) by omega) rfl rfl,
        if_congr (show (p < p + 1 ∧ p < n) ↔ (p < n) by omega) rfl rfl,
        if_congr (show (1 ≤ p ∧ p ≤ p ∧ p < n) ↔ (1 ≤ p ∧ p < n) by omega) rfl rfl,
        if_congr (show (1 ≤ p ∧ p ≤ p + 1 ∧ p < n) ↔ (1 ≤ p ∧ p < n) by
          omega) rfl rfl]
      ring
    · rw [if_neg (by omega : ¬(p = m ∧ m < n))]
      rcases eq_or_ne p (m + 1) with heq | hne
      · subst heq
        rw [if_neg (by omega : ¬(m + 1 < m ∧ m + 1 < n)),
          if_neg (by omega : ¬(m + 1 < m + 1 ∧ m + 1 < n)),
          if_neg (by omega : ¬(1 ≤ m + 1 ∧ m + 1 ≤ m ∧ m + 1 < n)),
          if_congr (show (m + 1 = m + 1 ∧ m + 1 < n) ↔
              (1 ≤ m + 1 ∧ m + 1 ≤ m + 1 ∧ m + 1 < n) by omega) rfl rfl]
        simp only [Nat.add_sub_cancel]
        ring
      · rw [if_neg (by omega : ¬(p = m + 1 ∧ m + 1 < n)),
          if_congr (show (p < m + 1 ∧ p < n) ↔ (p < m ∧ p < n) by omega) rfl rfl,
          if_congr (show (1 ≤ p ∧ p ≤ m + 1 ∧ p < n) ↔ (1 ≤ p ∧ p ≤ m ∧ p < n) by
            omega) rfl rfl]
        ring

lemma ctmPropagate_length (frozen : List ℚ) :
    (ctmPropagate frozen).length = frozen.length := by
  unfold ctmPropagate
  rw [foldl_ctmStep_length]

lemma ctmPropagate_getD (frozen : List ℚ) (p : ℕ) :
    (ctmPropagate frozen).getD p 0 =
      frozen.getD p 0
        - (if p + 1 < frozen.length then ctmFlux frozen p else 0)
        + (if 1 ≤ p ∧ p < frozen.length then ctmFlux frozen (p - 1) else 0) := by
  unfold ctmPropagate
  rw [foldl_ctmStep_getD, List.map_reverse, List.sum_reverse, deltaAt_sum]
  rw [if_congr (show (p < frozen.length - 1 ∧ p < frozen.length) ↔
        (p + 1 < frozen.length) by omega) rfl rfl,
    if_congr (show (1 ≤ p ∧ p ≤ frozen.length - 1 ∧ p < frozen.length) ↔
        (1 ≤ p ∧ p < frozen.length) by omega) rfl rfl]
  split_ifs <;> ring

/-- Modelled from the spec: the simultaneous-update reference definition of
the internal CTM propagation, `new[i] = frozen[i] − flux(i, i+1) +
flux(i−1, i)`, all fluxes taken against the single frozen snapshot, with a
flux term dropped when the corresponding adjacent pair does not exist. -/
def ctmSimultaneous (frozen : List ℚ) : List ℚ :=
  (List.range frozen.length).map (fun i =>
    frozen.getD i 0
      - (if i + 1 < frozen.length then ctmFlux frozen i else 0)
      + (match i with
          | 0 => 0
          | j + 1 => ctmFlux frozen j))

lemma ctmSimultaneous_length (frozen : List ℚ) :
    (ctmSimultaneous frozen).length = frozen.length := by
  simp [ctmSimultaneous]

lemma ctmSimultaneous_getD (frozen : List ℚ) (p : ℕ) (hp : p < frozen.length) :
    (ctmSimultaneous frozen).getD p 0 =
      frozen.getD p 0
        - (if p + 1 < frozen.length then ctmFlux frozen p else 0)
        + (if 1 ≤ p then ctmFlux frozen (p - 1) else 0) := by
  rw [List.getD_eq_getElem _ _ (by rwa [ctmSimultaneous_length])]
  unfold ctmSimultaneous
  rw [List.getElem_map, List.getElem_range]
  cases p with
  | zero => simp
  | succ j => simp [Nat.add_sub_cancel]

lemma ctmPropagate_eq_simultaneous (frozen : List ℚ) :
    ctmPropagate frozen = ctmSimultaneous frozen := by
  apply eq_of_getD_eq _ _ (by rw [ctmPropagate_length, ctmSimultaneous_length])
  intro p
  rw [ctmPropagate_getD]
  by_cases hp : p < frozen.length
  · rw [ctmSimultaneous_getD _ _ hp,
      if_congr (show (1 ≤ p ∧ p < frozen.length) ↔ (1 ≤ p) by omega) rfl rfl]
  · have h1 : (ctmSimultaneous frozen).getD p 0 = 0 :=
      getD_outside _ _ (by rw [ctmSimultaneous_length]; omega)
    have h2 : frozen.getD p 0 = 0 := getD_outside _ _ (by omega)
    rw [h1, h2, if_neg (by omega), if_neg (by omega)]
    ring

lemma foldl_ctmStep_order_irrelevant (frozen : List ℚ) (order : List ℕ)
    (h : order.Perm (List.range (frozen.length - 1))) :
    order.foldl (ctmStep frozen) frozen = ctmPropagate frozen := by
  apply eq_of_getD_eq _ _ (by rw [foldl_ctmStep_length, ctmPropagate_length])
  intro p
  unfold ctmPropagate
  rw [foldl_ctmStep_getD, foldl_ctmStep_getD]
  have hperm : (order.map (fun i => deltaAt frozen frozen.length i p)).Perm
      (((List.range (frozen.length - 1)).reverse).map
        (fun i => deltaAt frozen frozen.length i p)) :=
    (h.trans (List.reverse_perm _).symm).map _
  rw [hperm.sum_eq]

/-! ### CTM propagation: conservation and bounds -/

lemma ctmStep_sum (frozen acc : List ℚ) (i : ℕ) (h : i + 1 < acc.length) :
    (ctmStep frozen acc i).sum = acc.sum := by
  have hi : i < acc.length := by omega
  simp only [ctmStep]
  rw [sum_set' _ _ _ (by rwa [List.length_set]),
    sum_set' _ _ _ hi, getD_set]
  rw [if_neg (by omega : ¬(i + 1 = i ∧ i < acc.length))]
  ring

lemma foldl_ctmStep_sum (frozen : List ℚ) (order : List ℕ) :
    ∀ (acc : List ℚ), (∀ i ∈ order, i + 1 < acc.length) →
      (order.foldl (ctmStep frozen) acc).sum = acc.sum := by
  induction order with
  | nil => intro acc _; rfl
  | cons i rest ih =>
    intro acc h
    rw [List.foldl_cons, ih _ (fun j hj => by
      rw [ctmStep_length]; exact h j (List.mem_cons_of_mem _ hj)),
      ctmStep_sum _ _ _ (h i (List.mem_cons_self _ _))]

lemma ctmPropagate_sum (frozen : List ℚ) :
    (ctmPropagate frozen).sum = frozen.sum := by
  unfold ctmPropagate
  apply foldl_ctmStep_sum
  intro i hi
  rw [List.mem_reverse, List.mem_range] at hi
  omega

lemma stepPhysics_length (cells : List ℚ) (fIn fOut : ℚ) :
    (stepPhysics cells fIn fOut).length = cells.length := by
  simp [stepPhysics, ctmPropagate_length]

/-- Exact conservation of `stepPhysics` whenever the outflow does not exceed
the last cell's density (as holds for every outflow the engine routes). -/
lemma stepPhysics_sum (cells : List ℚ) (fIn fOut : ℚ) (hne : cells ≠ [])
    (hle : fOut ≤ lastCell cells) :
    (stepPhysics cells fIn fOut).sum = cells.sum + fIn - fOut := by
  have hlen : 0 < cells.length := List.length_pos.mpr hne
  simp only [stepPhysics, ctmPropagate_sum]
  rw [sum_set' _ _ _ (by rw [List.length_set]; omega),
    sum_set' _ _ _ (by omega : cells.length - 1 < cells.length),
    max_eq_right (by simpa [lastCell] using sub_nonneg.mpr hle)]
  ring

lemma ctmFlux_nonneg (frozen : List ℚ) (p : ℕ)
    (hb : ∀ q, q < frozen.length → 0 ≤ frozen.getD q 0 ∧
      frozen.getD q 0 ≤ MAX_CARS_PER_CELL) (hp : p < frozen.length) :
    0 ≤ ctmFlux frozen p := by
  unfold ctmFlux
  apply le_min (hb p hp).1
  by_cases h1 : p + 1 < frozen.length
  · have := (hb (p + 1) h1).2
    linarith
  · rw [getD_outside _ _ (by omega)]
    simp [MAX_CARS_PER_CELL]

lemma ctmPropagate_bounds (frozen : List ℚ)
    (hb : ∀ q, q < frozen.length → 0 ≤ frozen.getD q 0 ∧
      frozen.getD q 0 ≤ MAX_CARS_PER_CELL) :
    ∀ p, p < frozen.length → 0 ≤ (ctmPropagate frozen).getD p 0 ∧
      (ctmPropagate frozen).getD p 0 ≤ MAX_CARS_PER_CELL := by
  intro p hp
  rw [ctmPropagate_getD]
  have hpb := hb p hp
  constructor
  · have h1 : (if p + 1 < frozen.length then ctmFlux frozen p else 0) ≤
        frozen.getD p 0 := by
      split_ifs
      · exact min_le_left _ _
      · exact hpb.1
    have h2 : 0 ≤ (if 1 ≤ p ∧ p < frozen.length then ctmFlux frozen (p - 1)
        else 0) := by
      split_ifs with h
      · exact ctmFlux_nonneg frozen (p - 1) hb (by omega)
      · exact le_refl 0
    linarith
  · have h1 : 0 ≤ (if p + 1 < frozen.length then ctmFlux frozen p else 0) := by
      split_ifs with h
      · exact ctmFlux_nonneg frozen p hb hp
      · exact le_refl 0
    have h2 : (if 1 ≤ p ∧ p < frozen.length then ctmFlux frozen (p - 1)
        else 0) ≤ MAX_CARS_PER_CELL - frozen.getD p 0 := by
      split_ifs with h
      · have : ctmFlux frozen (p - 1) ≤
            MAX_CARS_PER_CELL - frozen.getD (p - 1 + 1) 0 := min_le_right _ _
        have hq : p - 1 + 1 = p := by omega
        rw [hq] at this
        exact this
      · linarith [hpb.2]
    linarith

/-! ### Grid wiring invariants -/

/-- The unique (intersection id, direction slot) position at which a road
with this id is installed as an *incoming* road by `buildGrid`. -/
def inPos (rid : RoadId) : NodeId × Dir :=
  match rid.dir with
  | .E => ((rid.row, rid.col + 1), .W)
  | .W => ((rid.row, rid.col), .E)
  | .S => ((rid.row + 1, rid.col), .N)
  | .N => ((rid.row, rid.col), .S)

/-- The unique (intersection id, direction slot) position at which a road
with this id is installed as an *outgoing* road by `buildGrid`. -/
def outPos (rid : RoadId) : NodeId × Dir :=
  match rid.dir with
  | .E => ((rid.row, rid.col), .E)
  | .W => ((rid.row, rid.col + 1), .W)
  | .S => ((rid.row, rid.col), .S)
  | .N => ((rid.row + 1, rid.col), .N)

/-- Every slot entry of an intersection decodes back to that intersection
and slot. -/
def WiredSlots (n : InterState) : Prop :=
  (∀ pr ∈ n.inRoads, inPos pr.2 = (n.id, pr.1)) ∧
  (∀ pr ∈ n.outRoads, outPos pr.2 = (n.id, pr.1))

/-- The wiring invariant of an intersection collection. -/
def Wired (inters : List InterState) : Prop :=
  (∀ n ∈ inters, WiredSlots n) ∧ (inters.map InterState.id).Nodup

lemma lookup_mem {l : List (Dir × RoadId)} {d : Dir} {rid : RoadId}
    (h : l.lookup d = some rid) : (d, rid) ∈ l := by
  induction l with
  | nil => simp [List.lookup] at h
  | cons a t ih =>
    rcases a with ⟨k, b⟩
    rw [List.lookup_cons] at h
    by_cases hd : (d == k) = true
    · simp only [hd] at h
      cases h
      have hk : d = k := beq_iff_eq.mp hd
      subst hk
      exact List.mem_cons_self _ _
    · simp only [Bool.not_eq_true] at hd
      simp only [hd] at h
      exact List.mem_cons_of_mem _ (ih h)

lemma findRoad_eq_some {roads : List RoadState} {rid : RoadId}
    {r : RoadState} (h : findRoad roads rid = some r) :
    r.id = rid ∧ r ∈ roads := by
  unfold findRoad at h
  exact ⟨by simpa using List.find?_some h, List.mem_of_find?_eq_some h⟩

lemma findRoad_self {roads : List RoadState}
    (hnd : (roads.map RoadState.id).Nodup) {r : RoadState} (hr : r ∈ roads) :
    findRoad roads r.id = some r := by
  induction roads with
  | nil => simp at hr
  | cons a t ih =>
    rw [List.map_cons, List.nodup_cons] at hnd
    rcases List.mem_cons.mp hr with rfl | hmem
    · simp [findRoad]
    · have hne : ¬(a.id == r.id) := by
        rw [beq_iff_eq]
        intro hcontra
        exact hnd.1 (hcontra ▸ List.mem_map_of_mem RoadState.id hmem)
      simpa [findRoad, List.find?, hne] using ih hnd.2 hmem

lemma slotRoad_eq_some {roads : List RoadState} {slots : List (Dir × RoadId)}
    {d : Dir} {r : RoadState} :
    slotRoad roads slots d = some r ↔
      ∃ rid, slots.lookup d = some rid ∧ findRoad roads rid = some r := by
  unfold slotRoad
  rcases slots.lookup d with _ | rid <;> simp

/-- Full characterization of the transfer emitted for one direction. -/
lemma dirTransfer_eq_some {roads : List RoadState} {node : InterState}
    {d : Dir} {t : Transfer} :
    dirTransfer roads node d = some t ↔
      ∃ source, slotRoad roads node.inRoads d = some source ∧
        ((slotRoad roads node.outRoads (targetMap d) = none ∧
          t = ⟨source.id, none, getDemand source⟩) ∨
         (∃ target, slotRoad roads node.outRoads (targetMap d) = some target ∧
          0 < min (getDemand source) (getSupply target) ∧
          t = ⟨source.id, some target.id,
                min (getDemand source) (getSupply target)⟩)) := by
  unfold dirTransfer
  rcases slotRoad roads node.inRoads d with _ | source
  · simp
  · rcases slotRoad roads node.outRoads (targetMap d) with _ | target
    · simp [eq_comm]
    · by_cases hf : 0 < min (getDemand source) (getSupply target)
      · simp only [if_pos hf]
        simp [eq_comm]
        intro _
        exact lt_min_iff.mp hf
      · simp only [if_neg hf]
        simp [eq_comm]
        intro h1 h2 _
        exact hf (lt_min_iff.mpr ⟨h1, h2⟩)

/-- The source of an emitted transfer is the id held in the incoming slot of
the direction that produced it. -/
lemma dirTransfer_src {roads : List RoadState} {node : InterState} {d : Dir}
    {t : Transfer} (h : dirTransfer roads node d = some t) :
    node.inRoads.lookup d = some t.src := by
  rcases dirTransfer_eq_some.mp h with ⟨source, hs, hcase⟩
  rcases slotRoad_eq_some.mp hs with ⟨rid, hl, hf⟩
  have hid : source.id = rid := (findRoad_eq_some hf).1
  rcases hcase with ⟨_, rfl⟩ | ⟨target, _, _, rfl⟩ <;> rw [hl] <;>
    simp [hid]

/-- The destination of a non-exit transfer is the id held in the opposite
outgoing slot. -/
lemma dirTransfer_tgt {roads : List RoadState} {node : InterState} {d : Dir}
    {t : Transfer} {tid : RoadId} (h : dirTransfer roads node d = some t)
    (htgt : t.tgt = some tid) :
    node.outRoads.lookup (targetMap d) = some tid := by
  rcases dirTransfer_eq_some.mp h with ⟨source, _, hcase⟩
  rcases hcase with ⟨_, rfl⟩ | ⟨target, ho, _, rfl⟩
  · exact absurd htgt (by simp)
  · rcases slotRoad_eq_some.mp ho with ⟨rid, hl, hf⟩
    have hid : target.id = rid := (findRoad_eq_some hf).1
    simp only [Option.some_inj] at htgt
    rw [hl, ← htgt, hid]

lemma targetMap_injective : Function.Injective targetMap := by
  intro a b h
  cases a <;> cases b <;> first | rfl | exact absurd h (by simp [targetMap])

/-- Membership in `stepFlow`. -/
lemma mem_stepFlow {roads : List RoadState} {node : InterState}
    {t : Transfer} :
    t ∈ stepFlow roads node ↔
      ∃ d ∈ allowedDirs node.phase, dirTransfer roads node d = some t :=
  List.mem_filterMap

/-- Counting over the two candidate transfers of one intersection: if the
two directions cannot both emit a matching transfer, the count is at most
one. -/
lemma filterMapTwo_countP_le_one (f : Dir → Option Transfer)
    (p : Transfer → Bool) (d1 d2 : Dir)
    (hconf : ∀ t1 t2, f d1 = some t1 → f d2 = some t2 →
      p t1 = true → p t2 = true → False) :
    ([d1, d2].filterMap f).countP p ≤ 1 := by
  rcases h1 : f d1 with _ | t1
  · rcases h2 : f d2 with _ | t2
    · simp [List.filterMap_cons, h1, h2]
    · rw [show [d1, d2].filterMap f = [t2] by
        simp [List.filterMap_cons, h1, h2]]
      rw [List.countP_cons, List.countP_nil]
      split_ifs <;> omega
  · rcases h2 : f d2 with _ | t2
    · rw [show [d1, d2].filterMap f = [t1] by
        simp [List.filterMap_cons, h1, h2]]
      rw [List.countP_cons, List.countP_nil]
      split_ifs <;> omega
    · rw [show [d1, d2].filterMap f = [t1, t2] by
        simp [List.filterMap_cons, h1, h2]]
      rw [List.countP_cons, List.countP_cons, List.countP_nil]
      by_cases hb1 : p t1 = true
      · by_cases hb2 : p t2 = true
        · exact (hconf t1 t2 h1 h2 hb1 hb2).elim
        · simp [hb1, hb2]
      · by_cases hb2 : p t2 = true <;> simp [hb1, hb2]

/-- Within one well-wired intersection, at most one emitted transfer has a
given source road id. -/
lemma stepFlow_countP_src (roads : List RoadState) (node : InterState)
    (hw : WiredSlots node) (rid : RoadId) :
    (stepFlow roads node).countP (fun t => t.src == rid) ≤ 1 := by
  have key : ∀ d1 d2 : Dir, d1 ≠ d2 →
      (([d1, d2].filterMap (dirTransfer roads node)).countP
        (fun t => t.src == rid)) ≤ 1 := by
    intro d1 d2 hne
    apply filterMapTwo_countP_le_one
    intro t1 t2 h1 h2 hb1 hb2
    have e1 : node.inRoads.lookup d1 = some rid :=
      (beq_iff_eq.mp hb1) ▸ dirTransfer_src h1
    have e2 : node.inRoads.lookup d2 = some rid :=
      (beq_iff_eq.mp hb2) ▸ dirTransfer_src h2
    have p1 := hw.1 _ (lookup_mem e1)
    have p2 := hw.1 _ (lookup_mem e2)
    rw [p1] at p2
    exact hne (by simpa using p2)
  unfold stepFlow allowedDirs
  split_ifs
  · exact key .N .S (by simp)
  · exact key .E .W (by simp)

/-- Within one well-wired intersection, at most one emitted transfer has a
given destination road id. -/
lemma stepFlow_countP_tgt (roads : List RoadState) (node : InterState)
    (hw : WiredSlots node) (rid : RoadId) :
    (stepFlow roads node).countP (fun t => t.tgt == some rid) ≤ 1 := by
  have key : ∀ d1 d2 : Dir, d1 ≠ d2 →
      (([d1, d2].filterMap (dirTransfer roads node)).countP
        (fun t => t.tgt == some rid)) ≤ 1 := by
    intro d1 d2 hne
    apply filterMapTwo_countP_le_one
    intro t1 t2 h1 h2 hb1 hb2
    have e1 : node.outRoads.lookup (targetMap d1) = some rid :=
      dirTransfer_tgt h1 (beq_iff_eq.mp hb1)
    have e2 : node.outRoads.lookup (targetMap d2) = some rid :=
      dirTransfer_tgt h2 (beq_iff_eq.mp hb2)
    have p1 := hw.2 _ (lookup_mem e1)
    have p2 := hw.2 _ (lookup_mem e2)
    rw [p1] at p2
    have heq : targetMap d1 = targetMap d2 := by simpa using p2
    exact hne (targetMap_injective heq)
  unfold stepFlow allowedDirs
  split_ifs
  · exact key .N .S (by simp)
  · exact key .E .W (by simp)


/-! ### The wiring invariant holds for built grids -/

lemma mem_setSlot {slots : List (Dir × RoadId)} {d : Dir} {rid : RoadId}
    {pr : Dir × RoadId} (h : pr ∈ setSlot slots d rid) :
    pr = (d, rid) ∨ pr ∈ slots := by
  unfold setSlot at h
  rcases List.mem_cons.mp h with h | h
  · exact Or.inl h
  · exact Or.inr (List.mem_of_mem_filter h)

lemma modifyNode_map_id (inters : List InterState) (nid : NodeId)
    (f : InterState → InterState) (hf : ∀ n, (f n).id = n.id) :
    (modifyNode inters nid f).map InterState.id =
      inters.map InterState.id := by
  unfold modifyNode
  rw [List.map_map]
  apply List.map_congr_left
  intro n _
  simp only [Function.comp_apply]
  split_ifs with h
  · exact hf n
  · rfl

lemma modifyNode_wired {inters : List InterState} {nid : NodeId}
    {f : InterState → InterState} (hall : ∀ n ∈ inters, WiredSlots n)
    (hf : ∀ n, n.id = nid → WiredSlots n → WiredSlots (f n)) :
    ∀ n ∈ modifyNode inters nid f, WiredSlots n := by
  intro n hn
  unfold modifyNode at hn
  rcases List.mem_map.mp hn with ⟨m, hm, rfl⟩
  by_cases h : (m.id == nid) = true
  · simp only [h, if_true]
    exact hf m (beq_iff_eq.mp h) (hall m hm)
  · simp only [h, if_false]
    exact hall m hm

lemma modifyNode_phase_timer {inters : List InterState} {nid : NodeId}
    {f : InterState → InterState}
    (hf : ∀ n, (f n).phase = n.phase ∧ (f n).phaseTimer = n.phaseTimer)
    (hall : ∀ n ∈ inters, n.phase = 0 ∧ n.phaseTimer = 0) :
    ∀ n ∈ modifyNode inters nid f, n.phase = 0 ∧ n.phaseTimer = 0 := by
  intro n hn
  unfold modifyNode at hn
  rcases List.mem_map.mp hn with ⟨m, hm, rfl⟩
  by_cases h : (m.id == nid) = true
  · simp only [h, if_true]
    exact ⟨(hf m).1.trans (hall m hm).1, (hf m).2.trans (hall m hm).2⟩
  · simp only [h, if_false]
    exact hall m hm

/-- State invariants preserved by one connection block. -/
def ConnState (st : List InterState × List RoadState) : Prop :=
  (∀ n ∈ st.1, WiredSlots n) ∧
  (∀ n ∈ st.1, n.phase = 0 ∧ n.phaseTimer = 0)

lemma connectHoriz_connState (cols : ℕ)
    (st : List InterState × List RoadState) (rc : ℕ × ℕ)
    (h : ConnState st) : ConnState (connectHoriz cols st rc) := by
  unfold connectHoriz
  by_cases hc : rc.2 + 1 < cols
  · simp only [hc, if_true]
    refine ⟨?_, ?_⟩
    · apply modifyNode_wired (modifyNode_wired h.1 ?_) ?_
      · intro n hid hw
        refine ⟨?_, ?_⟩
        · intro pr hpr
          rcases mem_setSlot hpr with rfl | hpr'
          · rw [hid]; rfl
          · exact hw.1 pr hpr'
        · intro pr hpr
          rcases mem_setSlot hpr with rfl | hpr'
          · rw [hid]; rfl
          · exact hw.2 pr hpr'
      · intro n hid hw
        refine ⟨?_, ?_⟩
        · intro pr hpr
          rcases mem_setSlot hpr with rfl | hpr'
          · rw [hid]; rfl
          · exact hw.1 pr hpr'
        · intro pr hpr
          rcases mem_setSlot hpr with rfl | hpr'
          · rw [hid]; rfl
          · exact hw.2 pr hpr'
    · exact modifyNode_phase_timer (fun n => ⟨rfl, rfl⟩)
        (modifyNode_phase_timer (fun n => ⟨rfl, rfl⟩) h.2)
  · simp only [hc, if_false]
    exact h

lemma connectVert_connState (rows : ℕ)
    (st : List InterState × List RoadState) (rc : ℕ × ℕ)
    (h : ConnState st) : ConnState (connectVert rows st rc) := by
  unfold connectVert
  by_cases hr : rc.1 + 1 < rows
  · simp only [hr, if_true]
    refine ⟨?_, ?_⟩
    · apply modifyNode_wired (modifyNode_wired h.1 ?_) ?_
      · intro n hid hw
        refine ⟨?_, ?_⟩
        · intro pr hpr
          rcases mem_setSlot hpr with rfl | hpr'
          · rw [hid]; rfl
          · exact hw.1 pr hpr'
        · intro pr hpr
          rcases mem_setSlot hpr with rfl | hpr'
          · rw [hid]; rfl
          · exact hw.2 pr hpr'
      · intro n hid hw
        refine ⟨?_, ?_⟩
        · intro pr hpr
          rcases mem_setSlot hpr with rfl | hpr'
          · rw [hid]; rfl
          · exact hw.1 pr hpr'
        · intro pr hpr
          rcases mem_setSlot hpr with rfl | hpr'
          · rw [hid]; rfl
          · exact hw.2 pr hpr'
    · exact modifyNode_phase_timer (fun n => ⟨rfl, rfl⟩)
        (modifyNode_phase_timer (fun n => ⟨rfl, rfl⟩) h.2)
  · simp only [hr, if_false]
    exact h

lemma connectAt_connState (rows cols : ℕ)
    (st : List InterState × List RoadState) (rc : ℕ × ℕ)
    (h : ConnState st) : ConnState (connectAt rows cols st rc) :=
  connectVert_connState rows _ rc (connectHoriz_connState cols st rc h)

lemma connectHoriz_map_id (cols : ℕ)
    (st : List InterState × List RoadState) (rc : ℕ × ℕ) :
    (connectHoriz cols st rc).1.map InterState.id =
      st.1.map InterState.id := by
  unfold connectHoriz
  by_cases hc : rc.2 + 1 < cols
  · simp only [hc, if_true]
    rw [modifyNode_map_id, modifyNode_map_id]
    all_goals intro n
    all_goals rfl
  · simp only [hc, if_false]

lemma connectVert_map_id (rows : ℕ)
    (st : List InterState × List RoadState) (rc : ℕ × ℕ) :
    (connectVert rows st rc).1.map InterState.id =
      st.1.map InterState.id := by
  unfold connectVert
  by_cases hr : rc.1 + 1 < rows
  · simp only [hr, if_true]
    rw [modifyNode_map_id, modifyNode_map_id]
    all_goals intro n
    all_goals rfl
  · simp only [hr, if_false]

lemma connectAt_map_id (rows cols : ℕ)
    (st : List InterState × List RoadState) (rc : ℕ × ℕ) :
    (connectAt rows cols st rc).1.map InterState.id =
      st.1.map InterState.id := by
  unfold connectAt
  rw [connectVert_map_id, connectHoriz_map_id]

/-- The roads appended by one connection step: freshly minted at the current
`(r, c)` pair, with distinct ids and all-zero cells. -/
lemma connectAt_roads (rows cols : ℕ)
    (st : List InterState × List RoadState) (rc : ℕ × ℕ) :
    ∃ extra, (connectAt rows cols st rc).2 = st.2 ++ extra ∧
      (extra.map RoadState.id).Nodup ∧
      (∀ rid ∈ extra.map RoadState.id, rid.row = rc.1 ∧ rid.col = rc.2) ∧
      (∀ r ∈ extra, r.cells = List.replicate ROAD_LENGTH_CELLS 0) := by
  unfold connectAt connectVert connectHoriz
  by_cases hc : rc.2 + 1 < cols <;> by_cases hr : rc.1 + 1 < rows <;>
    simp only [hc, hr, if_true, if_false]
  · refine ⟨[⟨⟨.E, rc.1, rc.2⟩, (rc.1, rc.2), (rc.1, rc.2 + 1),
        List.replicate ROAD_LENGTH_CELLS 0, decide (rc.2 = 0)⟩,
      ⟨⟨.W, rc.1, rc.2⟩, (rc.1, rc.2 + 1), (rc.1, rc.2),
        List.replicate ROAD_LENGTH_CELLS 0, decide (rc.2 + 1 = cols - 1)⟩,
      ⟨⟨.S, rc.1, rc.2⟩, (rc.1, rc.2), (rc.1 + 1, rc.2),
        List.replicate ROAD_LENGTH_CELLS 0, decide (rc.1 = 0)⟩,
      ⟨⟨.N, rc.1, rc.2⟩, (rc.1 + 1, rc.2), (rc.1, rc.2),
        List.replicate ROAD_LENGTH_CELLS 0, decide (rc.1 + 1 = rows - 1)⟩],
      ?_, ?_, ?_, ?_⟩
    · simp
    · simp
    · intro rid hrid
      simp only [List.map_cons, List.map_nil, List.mem_cons,
        List.not_mem_nil, or_false] at hrid
      rcases hrid with rfl | rfl | rfl | rfl <;> exact ⟨rfl, rfl⟩
    · intro r hrr
      simp only [List.mem_cons, List.not_mem_nil, or_false] at hrr
      rcases hrr with rfl | rfl | rfl | rfl <;> rfl
  · refine ⟨[⟨⟨.E, rc.1, rc.2⟩, (rc.1, rc.2), (rc.1, rc.2 + 1),
        List.replicate ROAD_LENGTH_CELLS 0, decide (rc.2 = 0)⟩,
      ⟨⟨.W, rc.1, rc.2⟩, (rc.1, rc.2 + 1), (rc.1, rc.2),
        List.replicate ROAD_LENGTH_CELLS 0, decide (rc.2 + 1 = cols - 1)⟩],
      rfl, ?_, ?_, ?_⟩
    · simp
    · intro rid hrid
      simp only [List.map_cons, List.map_nil, List.mem_cons,
        List.not_mem_nil, or_false] at hrid
      rcases hrid with rfl | rfl <;> exact ⟨rfl, rfl⟩
    · intro r hrr
      simp only [List.mem_cons, List.not_mem_nil, or_false] at hrr
      rcases hrr with rfl | rfl <;> rfl
  · refine ⟨[⟨⟨.S, rc.1, rc.2⟩, (rc.1, rc.2), (rc.1 + 1, rc.2),
        List.replicate ROAD_LENGTH_CELLS 0, decide (rc.1 = 0)⟩,
      ⟨⟨.N, rc.1, rc.2⟩, (rc.1 + 1, rc.2), (rc.1, rc.2),
        List.replicate ROAD_LENGTH_CELLS 0, decide (rc.1 + 1 = rows - 1)⟩],
      rfl, ?_, ?_, ?_⟩
    · simp
    · intro rid hrid
      simp only [List.map_cons, List.map_nil, List.mem_cons,
        List.not_mem_nil, or_false] at hrid
      rcases hrid with rfl | rfl <;> exact ⟨rfl, rfl⟩
    · intro r hrr
      simp only [List.mem_cons, List.not_mem_nil, or_false] at hrr
      rcases hrr with rfl | rfl <;> rfl
  · exact ⟨[], by simp, by simp, by simp, by simp⟩


lemma gridPairs_nodup (rows cols : ℕ) : (gridPairs rows cols).Nodup := by
  unfold gridPairs
  rw [List.nodup_flatMap]
  constructor
  · intro r _
    exact (List.nodup_range cols).map (fun a b h => by simpa using h)
  · have hp : List.Pairwise (fun a b => a ≠ b) (List.range rows) :=
      List.nodup_range rows
    refine hp.imp ?_
    intro a b hab x hx1 hx2
    rcases List.mem_map.mp hx1 with ⟨c1, _, rfl⟩
    rcases List.mem_map.mp hx2 with ⟨c2, _, heq⟩
    exact hab (congrArg Prod.fst heq).symm

lemma initInters_map_id (rows cols : ℕ) :
    (initInters rows cols).map InterState.id = gridPairs rows cols := by
  unfold initInters
  rw [List.map_map]
  have : (InterState.id ∘ fun rc : ℕ × ℕ =>
      (⟨rc, rc.1, rc.2, [], [], 0, 0⟩ : InterState)) = fun rc => rc := rfl
  rw [this, List.map_id']

lemma initInters_connState (rows cols : ℕ) :
    ConnState (initInters rows cols, []) := by
  constructor
  · intro n hn
    rcases List.mem_map.mp hn with ⟨rc, _, rfl⟩
    exact ⟨fun pr hpr => absurd hpr (List.not_mem_nil pr),
      fun pr hpr => absurd hpr (List.not_mem_nil pr)⟩
  · intro n hn
    rcases List.mem_map.mp hn with ⟨rc, _, rfl⟩
    exact ⟨rfl, rfl⟩

/-- The master invariant of the `buildGrid` connection loop. -/
lemma foldl_connect_invariants (rows cols : ℕ) :
    ∀ (l : List (ℕ × ℕ)) (st : List InterState × List RoadState),
      l.Nodup → ConnState st →
      (∀ rid ∈ st.2.map RoadState.id, (rid.row, rid.col) ∉ l) →
      (st.2.map RoadState.id).Nodup →
      (∀ r ∈ st.2, r.cells = List.replicate ROAD_LENGTH_CELLS 0) →
      ConnState (l.foldl (connectAt rows cols) st) ∧
      ((l.foldl (connectAt rows cols) st).1.map InterState.id =
        st.1.map InterState.id) ∧
      (((l.foldl (connectAt rows cols) st).2.map RoadState.id).Nodup) ∧
      (∀ r ∈ (l.foldl (connectAt rows cols) st).2,
        r.cells = List.replicate ROAD_LENGTH_CELLS 0) := by
  intro l
  induction l with
  | nil =>
    intro st _ hcs _ hnd hcells
    exact ⟨hcs, rfl, hnd, hcells⟩
  | cons rc rest ih =>
    intro st hlnd hcs hfresh hnd hcells
    rw [List.foldl_cons]
    rcases connectAt_roads rows cols st rc with ⟨extra, heq, hend, hrc, hecells⟩
    have hlnd' := List.nodup_cons.mp hlnd
    have hcs' : ConnState (connectAt rows cols st rc) :=
      connectAt_connState _ _ _ _ hcs
    have hmap' : (connectAt rows cols st rc).2.map RoadState.id =
        st.2.map RoadState.id ++ extra.map RoadState.id := by
      rw [heq, List.map_append]
    have hnd' : ((connectAt rows cols st rc).2.map RoadState.id).Nodup := by
      rw [hmap']
      refine List.Nodup.append hnd hend ?_
      intro rid hr1 hr2
      have h1 := hfresh rid hr1
      have h2 := hrc rid hr2
      exact h1 (by rw [h2.1, h2.2]; exact List.mem_cons_self _ _)
    have hfresh' : ∀ rid ∈ (connectAt rows cols st rc).2.map RoadState.id,
        (rid.row, rid.col) ∉ rest := by
      intro rid hr
      rw [hmap', List.mem_append] at hr
      rcases hr with hr | hr
      · intro hmem
        exact hfresh rid hr (List.mem_cons_of_mem _ hmem)
      · intro hmem
        have h2 := hrc rid hr
        rw [h2.1, h2.2] at hmem
        exact hlnd'.1 hmem
    have hcells' : ∀ r ∈ (connectAt rows cols st rc).2,
        r.cells = List.replicate ROAD_LENGTH_CELLS 0 := by
      intro r hr
      rw [heq, List.mem_append] at hr
      rcases hr with hr | hr
      · exact hcells r hr
      · exact hecells r hr
    have hrec := ih (connectAt rows cols st rc) hlnd'.2 hcs' hfresh' hnd' hcells'
    exact ⟨hrec.1, hrec.2.1.trans (connectAt_map_id rows cols st rc),
      hrec.2.2.1, hrec.2.2.2⟩

lemma buildGrid_invariants (rows cols : ℕ) :
    ConnState (buildGrid rows cols) ∧
    ((buildGrid rows cols).1.map InterState.id = gridPairs rows cols) ∧
    (((buildGrid rows cols).2.map RoadState.id).Nodup) ∧
    (∀ r ∈ (buildGrid rows cols).2,
      r.cells = List.replicate ROAD_LENGTH_CELLS 0) := by
  unfold buildGrid
  have h := foldl_connect_invariants rows cols (gridPairs rows cols)
    (initInters rows cols, []) (gridPairs_nodup rows cols)
    (initInters_connState rows cols) (by simp) (by simp) (by simp)
  exact ⟨h.1, h.2.1.trans (initInters_map_id rows cols), h.2.2.1, h.2.2.2⟩

/-! ### The engine invariant and its preservation by `step` -/

/-- The reachable-state invariant of the engine: well-wired distinct
intersections, distinct road ids, and all cell densities within
`[0, MAX_CARS_PER_CELL]`. -/
def Invariant (e : Engine) : Prop :=
  Wired e.inters ∧ ((e.roads.map RoadState.id).Nodup) ∧
  (∀ r ∈ e.roads, ∀ x ∈ r.cells, 0 ≤ x ∧ x ≤ MAX_CARS_PER_CELL)

lemma mkEngine_invariant (rows cols : ℤ) (rate : ℚ) (mode : ControlMode) :
    Invariant (mkEngine rows cols rate mode) := by
  have h := buildGrid_invariants rows.toNat cols.toNat
  refine ⟨⟨h.1.1, ?_⟩, h.2.2.1, ?_⟩
  · show ((buildGrid rows.toNat cols.toNat).1.map InterState.id).Nodup
    rw [h.2.1]
    exact gridPairs_nodup _ _
  · intro r hr x hx
    have hc := h.2.2.2 r hr
    rw [hc] at hx
    have := List.eq_of_mem_replicate hx
    subst this
    exact ⟨le_refl 0, by norm_num [MAX_CARS_PER_CELL]⟩


lemma updateSignal_id (mode : ControlMode) (roads : List RoadState)
    (n : InterState) : (updateSignal mode roads n).id = n.id := by
  unfold updateSignal
  cases mode <;> simp only [] <;> split_ifs <;> rfl

lemma updateSignal_inRoads (mode : ControlMode) (roads : List RoadState)
    (n : InterState) : (updateSignal mode roads n).inRoads = n.inRoads := by
  unfold updateSignal
  cases mode <;> simp only [] <;> split_ifs <;> rfl

lemma updateSignal_outRoads (mode : ControlMode) (roads : List RoadState)
    (n : InterState) : (updateSignal mode roads n).outRoads = n.outRoads := by
  unfold updateSignal
  cases mode <;> simp only [] <;> split_ifs <;> rfl

lemma spawn_id (inters : List InterState) (rand : RoadId → Bool)
    (r : RoadState) : (spawn inters rand r).id = r.id := by
  unfold spawn
  split_ifs <;> rfl

lemma step_inters (e : Engine) (rand : RoadId → Bool) :
    (step e rand).inters = e.inters.map (updateSignal e.mode e.roads) := rfl

lemma step_roads (e : Engine) (rand : RoadId → Bool) :
    (step e rand).roads =
      (e.roads.map (fun r =>
        { r with cells := (stepPhysics r.cells
            (aggInflow (tickTransfers e.roads
              (e.inters.map (updateSignal e.mode e.roads))) r.id)
            (aggOutflow (tickTransfers e.roads
              (e.inters.map (updateSignal e.mode e.roads))) r.id)) })).map
        (spawn (e.inters.map (updateSignal e.mode e.roads)) rand) := rfl

lemma step_mode (e : Engine) (rand : RoadId → Bool) :
    (step e rand).mode = e.mode := rfl

lemma signal_wired {e : Engine} (h : Wired e.inters) :
    Wired (e.inters.map (updateSignal e.mode e.roads)) := by
  constructor
  · intro n hn
    rcases List.mem_map.mp hn with ⟨m, hm, rfl⟩
    have hw := h.1 m hm
    constructor
    · intro pr hpr
      rw [updateSignal_inRoads] at hpr
      rw [updateSignal_id]
      exact hw.1 pr hpr
    · intro pr hpr
      rw [updateSignal_outRoads] at hpr
      rw [updateSignal_id]
      exact hw.2 pr hpr
  · rw [List.map_map]
    have heq : (InterState.id ∘ updateSignal e.mode e.roads) =
        fun n => n.id := by
      funext n
      exact updateSignal_id _ _ _
    rw [heq]
    exact h.2

lemma step_wired {e : Engine} {rand : RoadId → Bool} (h : Wired e.inters) :
    Wired (step e rand).inters := by
  rw [step_inters]
  exact signal_wired h

lemma step_road_ids (e : Engine) (rand : RoadId → Bool) :
    (step e rand).roads.map RoadState.id = e.roads.map RoadState.id := by
  rw [step_roads, List.map_map, List.map_map]
  apply List.map_congr_left
  intro r _
  simp only [Function.comp_apply]
  rw [spawn_id]

/-! ### Bounds on the aggregated tick flows -/

lemma lastCell_bounds {cells : List ℚ}
    (hb : ∀ x ∈ cells, 0 ≤ x ∧ x ≤ MAX_CARS_PER_CELL) :
    0 ≤ lastCell cells ∧ lastCell cells ≤ MAX_CARS_PER_CELL := by
  unfold lastCell
  by_cases h : cells = []
  · subst h
    norm_num [MAX_CARS_PER_CELL]
  · have hlen : cells.length - 1 < cells.length := by
      have := List.length_pos.mpr h
      omega
    have hmem : cells.getD (cells.length - 1) 0 ∈ cells := by
      rw [List.getD_eq_getElem _ _ hlen]
      exact List.getElem_mem hlen
    exact hb _ hmem

lemma getDemand_nonneg {r : RoadState}
    (hb : ∀ x ∈ r.cells, 0 ≤ x ∧ x ≤ MAX_CARS_PER_CELL) :
    0 ≤ getDemand r := by
  unfold getDemand WAVE_SPEED
  have := (lastCell_bounds hb).1
  apply le_min
  · linarith
  · norm_num [MAX_CARS_PER_CELL]

lemma getDemand_le_lastCell {r : RoadState} :
    getDemand r ≤ lastCell r.cells := by
  unfold getDemand WAVE_SPEED
  have h := min_le_left (1 * lastCell r.cells) MAX_CARS_PER_CELL
  linarith [h]

/-- Full characterization of any transfer emitted during a tick. -/
lemma tickTransfers_amount {roads : List RoadState}
    {inters : List InterState} {t : Transfer}
    (ht : t ∈ tickTransfers roads inters) :
    ∃ source, findRoad roads t.src = some source ∧
      ((t.tgt = none ∧ t.amount = getDemand source) ∨
       (∃ tid target, t.tgt = some tid ∧ findRoad roads tid = some target ∧
         t.amount = min (getDemand source) (getSupply target) ∧
         0 < t.amount)) := by
  unfold tickTransfers at ht
  rcases List.mem_flatMap.mp ht with ⟨node, _, htf⟩
  rcases mem_stepFlow.mp htf with ⟨d, _, hdt⟩
  rcases dirTransfer_eq_some.mp hdt with ⟨source, hs, hcase⟩
  rcases slotRoad_eq_some.mp hs with ⟨rid, _, hf⟩
  have hid : source.id = rid := (findRoad_eq_some hf).1
  rcases hcase with ⟨_, rfl⟩ | ⟨target, ho, hpos, rfl⟩
  · refine ⟨source, ?_, Or.inl ⟨rfl, rfl⟩⟩
    show findRoad roads source.id = some source
    rw [hid]
    exact hf
  · rcases slotRoad_eq_some.mp ho with ⟨tid, _, htf'⟩
    have htid : target.id = tid := (findRoad_eq_some htf').1
    refine ⟨source, ?_, Or.inr ⟨target.id, target, rfl, ?_, rfl, hpos⟩⟩
    · show findRoad roads source.id = some source
      rw [hid]
      exact hf
    · rw [htid]
      exact htf'

lemma filter_of_countP_le_one {l : List Transfer} {p : Transfer → Bool}
    (h : l.countP p ≤ 1) :
    l.filter p = [] ∨ ∃ t, l.filter p = [t] ∧ t ∈ l ∧ p t = true := by
  rw [List.countP_eq_length_filter] at h
  rcases hf : l.filter p with _ | ⟨t, rest⟩
  · exact Or.inl rfl
  · right
    have hlen : rest.length = 0 := by
      rw [hf] at h
      simpa using h
    have hrest : rest = [] := List.eq_nil_of_length_eq_zero hlen
    subst hrest
    have hmem : t ∈ l.filter p := by
      rw [hf]
      exact List.mem_cons_self _ _
    exact ⟨t, rfl, (List.mem_filter.mp hmem).1, (List.mem_filter.mp hmem).2⟩


/-- At most one matching transfer across the whole collected list, given at
most one per intersection and pairwise exclusivity. -/
lemma countP_flatMap_le_one (roads : List RoadState) (p : Transfer → Bool) :
    ∀ (ns : List InterState),
      (∀ n ∈ ns, (stepFlow roads n).countP p ≤ 1) →
      ns.Pairwise (fun a b => ¬((∃ t1 ∈ stepFlow roads a, p t1 = true) ∧
        (∃ t2 ∈ stepFlow roads b, p t2 = true))) →
      (ns.flatMap (stepFlow roads)).countP p ≤ 1 := by
  intro ns
  induction ns with
  | nil => intro _ _; simp
  | cons n rest ih =>
    intro hone hpair
    rw [List.flatMap_cons, List.countP_append]
    rcases List.pairwise_cons.mp hpair with ⟨hhead, htail⟩
    by_cases hz : (stepFlow roads n).countP p = 0
    · rw [hz]
      simpa using ih (fun m hm => hone m (List.mem_cons_of_mem _ hm)) htail
    · have hpos : 0 < (stepFlow roads n).countP p := Nat.pos_of_ne_zero hz
      rcases List.countP_pos_iff.mp hpos with ⟨t1, ht1, hpt1⟩
      have htail0 : (rest.flatMap (stepFlow roads)).countP p = 0 := by
        by_contra hc
        rcases List.countP_pos_iff.mp (Nat.pos_of_ne_zero hc) with
          ⟨t2, ht2, hpt2⟩
        rcases List.mem_flatMap.mp ht2 with ⟨m, hm, ht2'⟩
        exact hhead m hm ⟨⟨t1, ht1, hpt1⟩, ⟨t2, ht2', hpt2⟩⟩
      rw [htail0]
      have := hone n (List.mem_cons_self _ _)
      omega

/-- Each road is the source of at most one transfer in a tick's collected
transfer list. -/
lemma tickTransfers_countP_src (roads : List RoadState)
    (inters : List InterState) (hw : Wired inters) (rid : RoadId) :
    (tickTransfers roads inters).countP (fun t => t.src == rid) ≤ 1 := by
  unfold tickTransfers
  apply countP_flatMap_le_one
  · intro n hn
    exact stepFlow_countP_src roads n (hw.1 n hn) rid
  · have hp : inters.Pairwise (fun a b => a.id ≠ b.id) :=
      List.pairwise_map.mp hw.2
    refine hp.imp_of_mem ?_
    intro a b ha hb hne hcontra
    rcases hcontra with ⟨⟨t1, ht1, hp1⟩, ⟨t2, ht2, hp2⟩⟩
    rcases mem_stepFlow.mp ht1 with ⟨d1, _, hd1⟩
    rcases mem_stepFlow.mp ht2 with ⟨d2, _, hd2⟩
    have e1 := dirTransfer_src hd1
    have e2 := dirTransfer_src hd2
    rw [beq_iff_eq.mp hp1] at e1
    rw [beq_iff_eq.mp hp2] at e2
    have q1 := (hw.1 a ha).1 _ (lookup_mem e1)
    have q2 := (hw.1 b hb).1 _ (lookup_mem e2)
    rw [q1] at q2
    exact hne (by simpa using congrArg Prod.fst q2)

/-- Each road is the destination of at most one transfer in a tick's
collected transfer list. -/
lemma tickTransfers_countP_tgt (roads : List RoadState)
    (inters : List InterState) (hw : Wired inters) (rid : RoadId) :
    (tickTransfers roads inters).countP (fun t => t.tgt == some rid) ≤ 1 := by
  unfold tickTransfers
  apply countP_flatMap_le_one
  · intro n hn
    exact stepFlow_countP_tgt roads n (hw.1 n hn) rid
  · have hp : inters.Pairwise (fun a b => a.id ≠ b.id) :=
      List.pairwise_map.mp hw.2
    refine hp.imp_of_mem ?_
    intro a b ha hb hne hcontra
    rcases hcontra with ⟨⟨t1, ht1, hp1⟩, ⟨t2, ht2, hp2⟩⟩
    rcases mem_stepFlow.mp ht1 with ⟨d1, _, hd1⟩
    rcases mem_stepFlow.mp ht2 with ⟨d2, _, hd2⟩
    have e1 := dirTransfer_tgt hd1 (beq_iff_eq.mp hp1)
    have e2 := dirTransfer_tgt hd2 (beq_iff_eq.mp hp2)
    have q1 := (hw.1 a ha).2 _ (lookup_mem e1)
    have q2 := (hw.1 b hb).2 _ (lookup_mem e2)
    rw [q1] at q2
    exact hne (by simpa using congrArg Prod.fst q2)

lemma aggInflow_bounds {roads : List RoadState} {inters : List InterState}
    (hw : Wired inters) (hnd : (roads.map RoadState.id).Nodup)
    {r : RoadState} (hr : r ∈ roads) :
    0 ≤ aggInflow (tickTransfers roads inters) r.id ∧
    aggInflow (tickTransfers roads inters) r.id ≤ getSupply r := by
  have hcount := tickTransfers_countP_tgt roads inters hw r.id
  unfold aggInflow
  rcases filter_of_countP_le_one hcount with hnil | ⟨t, hone, htmem, hpt⟩
  · rw [hnil]
    exact ⟨le_refl 0, le_max_left 0 _⟩
  · rw [hone]
    simp only [List.map_cons, List.map_nil, List.sum_cons, List.sum_nil,
      add_zero]
    rcases tickTransfers_amount htmem with ⟨source, hfr, hcase⟩
    rcases hcase with ⟨hnone, _⟩ | ⟨tid, target, htgt, hft, hamt, hpos⟩
    · rw [hnone] at hpt
      exact absurd hpt (by simp)
    · have htid : tid = r.id := by
        rw [htgt] at hpt
        simpa using hpt
      subst htid
      have hfr2 : findRoad roads r.id = some r := findRoad_self hnd hr
      rw [hfr2] at hft
      cases hft
      exact ⟨le_of_lt hpos, by rw [hamt]; exact min_le_right _ _⟩

lemma aggOutflow_bounds {roads : List RoadState} {inters : List InterState}
    (hw : Wired inters) (hnd : (roads.map RoadState.id).Nodup)
    (hb : ∀ r ∈ roads, ∀ x ∈ r.cells, 0 ≤ x ∧ x ≤ MAX_CARS_PER_CELL)
    {r : RoadState} (hr : r ∈ roads) :
    0 ≤ aggOutflow (tickTransfers roads inters) r.id ∧
    aggOutflow (tickTransfers roads inters) r.id ≤ getDemand r := by
  have hcount := tickTransfers_countP_src roads inters hw r.id
  unfold aggOutflow
  rcases filter_of_countP_le_one hcount with hnil | ⟨t, hone, htmem, hpt⟩
  · rw [hnil]
    exact ⟨le_refl 0, getDemand_nonneg (hb r hr)⟩
  · rw [hone]
    simp only [List.map_cons, List.map_nil, List.sum_cons, List.sum_nil,
      add_zero]
    rcases tickTransfers_amount htmem with ⟨source, hfr, hcase⟩
    have hsrc : t.src = r.id := beq_iff_eq.mp hpt
    rw [hsrc, findRoad_self hnd hr] at hfr
    cases hfr
    rcases hcase with ⟨_, hamt⟩ | ⟨tid, target, _, _, hamt, hpos⟩
    · rw [hamt]
      exact ⟨getDemand_nonneg (hb r hr), le_refl _⟩
    · rw [hamt]
      exact ⟨le_of_lt (hamt ▸ hpos), min_le_left _ _⟩


lemma bounds_getD {cells : List ℚ}
    (hb : ∀ x ∈ cells, 0 ≤ x ∧ x ≤ MAX_CARS_PER_CELL) :
    ∀ q, 0 ≤ cells.getD q 0 ∧ cells.getD q 0 ≤ MAX_CARS_PER_CELL := by
  intro q
  by_cases hq : q < cells.length
  · have hm : cells.getD q 0 ∈ cells := by
      rw [List.getD_eq_getElem _ _ hq]
      exact List.getElem_mem hq
    exact hb _ hm
  · rw [getD_outside _ _ (by omega)]
    norm_num [MAX_CARS_PER_CELL]

/-- Cell bounds are preserved by one physics pass whenever the inflow is
within the road's supply and both flows are non-negative. -/
lemma stepPhysics_bounds {cells : List ℚ} {fIn fOut : ℚ}
    (hb : ∀ x ∈ cells, 0 ≤ x ∧ x ≤ MAX_CARS_PER_CELL)
    (hin0 : 0 ≤ fIn)
    (hins : fIn ≤ max 0 (MAX_CARS_PER_CELL - cells.getD 0 0))
    (hout : 0 ≤ fOut) :
    ∀ x ∈ stepPhysics cells fIn fOut, 0 ≤ x ∧ x ≤ MAX_CARS_PER_CELL := by
  have hget := bounds_getD hb
  set c1 := cells.set (cells.length - 1)
      (max 0 (cells.getD (cells.length - 1) 0 - fOut)) with hc1
  set c2 := c1.set 0 (c1.getD 0 0 + fIn) with hc2
  have hb1 : ∀ q, 0 ≤ c1.getD q 0 ∧ c1.getD q 0 ≤ MAX_CARS_PER_CELL := by
    intro q
    rw [hc1, getD_set]
    split_ifs with h
    · refine ⟨le_max_left 0 _, max_le (by norm_num [MAX_CARS_PER_CELL]) ?_⟩
      have := (hget (cells.length - 1)).2
      linarith
    · exact hget q
  have hc1z : c1.getD 0 0 ≤ cells.getD 0 0 := by
    rw [hc1, getD_set]
    split_ifs with h
    · rcases h with ⟨h0, _⟩
      rw [← h0]
      apply max_le
      · exact (hget 0).1
      · have := (hget 0).1
        linarith
    · exact le_refl _
  have hb2 : ∀ q, 0 ≤ c2.getD q 0 ∧ c2.getD q 0 ≤ MAX_CARS_PER_CELL := by
    intro q
    rw [hc2, getD_set]
    split_ifs with h
    · constructor
      · have := (hb1 0).1
        linarith
      · have h2 := (hget 0).2
        have h3 : max 0 (MAX_CARS_PER_CELL - cells.getD 0 0) =
            MAX_CARS_PER_CELL - cells.getD 0 0 := max_eq_right (by linarith)
        rw [h3] at hins
        linarith [hc1z]
    · exact hb1 q
  have hsp : stepPhysics cells fIn fOut = ctmPropagate c2 := by
    rw [hc2, hc1]
    rfl
  intro x hx
  rw [hsp] at hx
  rcases List.mem_iff_getElem.mp hx with ⟨q, hq, hxq⟩
  have hq2 : q < c2.length := by
    rw [ctmPropagate_length] at hq
    exact hq
  have hbq := ctmPropagate_bounds c2 (fun p _ => hb2 p) q hq2
  rw [List.getD_eq_getElem _ _ (by rw [ctmPropagate_length]; exact hq2)] at hbq
  rw [hxq] at hbq
  exact hbq

lemma spawn_bounds {inters : List InterState} {rand : RoadId → Bool}
    {r : RoadState} (hb : ∀ x ∈ r.cells, 0 ≤ x ∧ x ≤ MAX_CARS_PER_CELL) :
    ∀ x ∈ (spawn inters rand r).cells, 0 ≤ x ∧ x ≤ MAX_CARS_PER_CELL := by
  unfold spawn
  split_ifs with h
  · intro x hx
    simp only [] at hx
    rcases List.mem_or_eq_of_mem_set hx with hx' | rfl
    · exact hb x hx'
    · simp only [Bool.and_eq_true, decide_eq_true_eq] at h
      have hcond : r.cells.getD 0 0 < 2 := h.1.2
      have h0 : 0 ≤ r.cells.getD 0 0 := (bounds_getD hb 0).1
      constructor
      · linarith
      · show r.cells.getD 0 0 + 2 ≤ MAX_CARS_PER_CELL
        have h7 : MAX_CARS_PER_CELL = (7 : ℚ) := rfl
        rw [h7]
        linarith
  · exact hb

lemma invariant_step {e : Engine} (h : Invariant e) (rand : RoadId → Bool) :
    Invariant (step e rand) := by
  obtain ⟨hw, hnd, hb⟩ := h
  have hw1 : Wired (e.inters.map (updateSignal e.mode e.roads)) :=
    signal_wired hw
  refine ⟨step_wired hw, ?_, ?_⟩
  · rw [step_road_ids]
    exact hnd
  · intro r hr x hx
    rw [step_roads] at hr
    rcases List.mem_map.mp hr with ⟨r1, hr1, rfl⟩
    rcases List.mem_map.mp hr1 with ⟨r0, hr0, rfl⟩
    refine spawn_bounds ?_ x hx
    show ∀ y ∈ stepPhysics r0.cells _ _, 0 ≤ y ∧ y ≤ MAX_CARS_PER_CELL
    refine stepPhysics_bounds (hb r0 hr0) ?_ ?_ ?_
    · exact (aggInflow_bounds hw1 hnd hr0).1
    · exact (aggInflow_bounds hw1 hnd hr0).2
    · exact (aggOutflow_bounds hw1 hnd hb hr0).1

lemma invariant_run {e : Engine} (h : Invariant e) :
    ∀ rands : List (RoadId → Bool), Invariant (runSteps e rands) := by
  intro rands
  induction rands generalizing e with
  | nil => exact h
  | cons rand rest ih => exact ih (invariant_step h rand)

lemma runSteps_mode (e : Engine) :
    ∀ rands : List (RoadId → Bool), (runSteps e rands).mode = e.mode := by
  intro rands
  induction rands generalizing e with
  | nil => rfl
  | cons rand rest ih => exact (ih (step e rand)).trans (step_mode e rand)

lemma step_stepCount (e : Engine) (rand : RoadId → Bool) :
    (step e rand).stepCount = e.stepCount + 1 := rfl

lemma runSteps_stepCount (e : Engine) :
    ∀ rands : List (RoadId → Bool),
      (runSteps e rands).stepCount = e.stepCount + rands.length := by
  intro rands
  induction rands generalizing e with
  | nil => rfl
  | cons rand rest ih =>
    show (runSteps (step e rand) rest).stepCount = e.stepCount + (rest.length + 1)
    rw [ih (step e rand), step_stepCount]
    omega


/-! ### The boundary flag is dead state for `step` -/

lemma findRoad_stripRoad (roads : List RoadState) (rid : RoadId) :
    findRoad (roads.map stripRoad) rid = (findRoad roads rid).map stripRoad := by
  unfold findRoad
  induction roads with
  | nil => rfl
  | cons a t ih =>
    simp only [List.map_cons, List.find?_cons]
    by_cases h : (a.id == rid) = true
    · have h' : ((stripRoad a).id == rid) = true := h
      rw [h, h']
      rfl
    · have h' : ((stripRoad a).id == rid) = false := by
        simpa using h
      rw [Bool.not_eq_true] at h
      rw [h, h']
      exact ih


lemma slotRoad_stripRoad (roads : List RoadState)
    (slots : List (Dir × RoadId)) (d : Dir) :
    slotRoad (roads.map stripRoad) slots d =
      (slotRoad roads slots d).map stripRoad := by
  unfold slotRoad
  rcases slots.lookup d with _ | rid
  · rfl
  · exact findRoad_stripRoad roads rid

lemma getPressure_stripRoad (roads : List RoadState) (node : InterState) :
    getPressure (roads.map stripRoad) node = getPressure roads node := by
  unfold getPressure
  rw [slotRoad_stripRoad, slotRoad_stripRoad, slotRoad_stripRoad,
    slotRoad_stripRoad, slotRoad_stripRoad, slotRoad_stripRoad,
    slotRoad_stripRoad, slotRoad_stripRoad]
  rcases slotRoad roads node.inRoads .N with _ | r1 <;>
    rcases slotRoad roads node.outRoads .S with _ | r2 <;>
    rcases slotRoad roads node.inRoads .S with _ | r3 <;>
    rcases slotRoad roads node.outRoads .N with _ | r4 <;>
    rcases slotRoad roads node.inRoads .E with _ | r5 <;>
    rcases slotRoad roads node.outRoads .W with _ | r6 <;>
    rcases slotRoad roads node.inRoads .W with _ | r7 <;>
    rcases slotRoad roads node.outRoads .E with _ | r8 <;>
    rfl

lemma updateSignal_stripRoad (mode : ControlMode) (roads : List RoadState)
    (n : InterState) :
    updateSignal mode (roads.map stripRoad) n = updateSignal mode roads n := by
  unfold updateSignal
  cases mode
  · rfl
  · simp only [getPressure_stripRoad]

lemma dirTransfer_stripRoad (roads : List RoadState) (node : InterState)
    (d : Dir) :
    dirTransfer (roads.map stripRoad) node d = dirTransfer roads node d := by
  unfold dirTransfer
  rw [slotRoad_stripRoad, slotRoad_stripRoad]
  rcases slotRoad roads node.inRoads d with _ | source <;>
    rcases slotRoad roads node.outRoads (targetMap d) with _ | target <;>
    rfl

lemma stepFlow_stripRoad (roads : List RoadState) (node : InterState) :
    stepFlow (roads.map stripRoad) node = stepFlow roads node := by
  unfold stepFlow
  congr 1
  funext d
  exact dirTransfer_stripRoad roads node d

lemma tickTransfers_stripRoad (roads : List RoadState)
    (inters : List InterState) :
    tickTransfers (roads.map stripRoad) inters =
      tickTransfers roads inters := by
  unfold tickTransfers
  congr 1
  funext n
  exact stepFlow_stripRoad roads n

lemma spawn_stripRoad (inters : List InterState) (rand : RoadId → Bool)
    (x : RoadState) :
    spawn inters rand (stripRoad x) = stripRoad (spawn inters rand x) := by
  unfold spawn
  have hc : (isEntryRoad inters (stripRoad x) &&
      decide ((stripRoad x).cells.getD 0 0 < 2) && rand (stripRoad x).id) =
      (isEntryRoad inters x && decide (x.cells.getD 0 0 < 2) && rand x.id) :=
    rfl
  rw [hc]
  split_ifs with h
  · rfl
  · rfl

lemma step_stripB (e : Engine) (rand : RoadId → Bool) :
    step (stripB e) rand = stripB (step e rand) := by
  show step { e with roads := e.roads.map stripRoad } rand = _
  unfold step stripB
  simp only []
  have hsig : (updateSignal e.mode (e.roads.map stripRoad)) =
      (updateSignal e.mode e.roads) :=
    funext (updateSignal_stripRoad e.mode e.roads)
  rw [hsig, tickTransfers_stripRoad]
  congr 1
  rw [List.map_map, List.map_map, List.map_map, List.map_map]
  apply List.map_congr_left
  intro r _
  simp only [Function.comp_apply]
  show spawn (e.inters.map (updateSignal e.mode e.roads)) rand
      (stripRoad { r with cells := (stepPhysics r.cells
        (aggInflow (tickTransfers e.roads
          (e.inters.map (updateSignal e.mode e.roads))) r.id)
        (aggOutflow (tickTransfers e.roads
          (e.inters.map (updateSignal e.mode e.roads))) r.id)) }) =
    stripRoad (spawn (e.inters.map (updateSignal e.mode e.roads)) rand
      { r with cells := (stepPhysics r.cells
        (aggInflow (tickTransfers e.roads
          (e.inters.map (updateSignal e.mode e.roads))) r.id)
        (aggOutflow (tickTransfers e.roads
          (e.inters.map (updateSignal e.mode e.roads))) r.id)) })
  exact spawn_stripRoad _ _ _


/-! ### Phase-control characterizations -/

lemma fixed_step_phase {e : Engine} (hmode : e.mode = .FIXED)
    (hinv : ∀ n ∈ e.inters,
      n.phase = (e.stepCount / FIXED_CYCLE_STEPS) % 2 ∧
      n.phaseTimer = e.stepCount % FIXED_CYCLE_STEPS)
    (rand : RoadId → Bool) :
    ∀ m ∈ (step e rand).inters,
      m.phase = ((step e rand).stepCount / FIXED_CYCLE_STEPS) % 2 ∧
      m.phaseTimer = (step e rand).stepCount % FIXED_CYCLE_STEPS := by
  intro m hm
  rw [step_inters] at hm
  rcases List.mem_map.mp hm with ⟨m0, hm0, rfl⟩
  have h0 := hinv m0 hm0
  rw [step_stepCount]
  have hF : FIXED_CYCLE_STEPS = 6 := rfl
  rw [hF] at h0 ⊢
  unfold updateSignal
  rw [hmode]
  simp only []
  split_ifs with hcond
  · have hcond' : 6 ≤ m0.phaseTimer + 1 := by simpa [hF] using hcond
    rw [h0.2] at hcond'
    constructor
    · show 1 - m0.phase = (e.stepCount + 1) / 6 % 2
      rw [h0.1]
      omega
    · show (0 : ℕ) = (e.stepCount + 1) % 6
      omega
  · have hcond' : ¬6 ≤ m0.phaseTimer + 1 := by simpa [hF] using hcond
    rw [h0.2] at hcond'
    constructor
    · show m0.phase = (e.stepCount + 1) / 6 % 2
      rw [h0.1]
      omega
    · show m0.phaseTimer + 1 = (e.stepCount + 1) % 6
      rw [h0.2]
      omega

lemma fixed_phase_char : ∀ (rands : List (RoadId → Bool)) (e : Engine),
    e.mode = .FIXED →
    (∀ n ∈ e.inters,
      n.phase = (e.stepCount / FIXED_CYCLE_STEPS) % 2 ∧
      n.phaseTimer = e.stepCount % FIXED_CYCLE_STEPS) →
    ∀ n ∈ (runSteps e rands).inters,
      n.phase = ((e.stepCount + rands.length) / FIXED_CYCLE_STEPS) % 2 ∧
      n.phaseTimer = (e.stepCount + rands.length) % FIXED_CYCLE_STEPS := by
  intro rands
  induction rands with
  | nil => intro e _ hinv n hn; simpa using hinv n hn
  | cons rand rest ih =>
    intro e hmode hinv n hn
    have hmode' : (step e rand).mode = .FIXED := by
      rw [step_mode]; exact hmode
    have := ih (step e rand) hmode' (fixed_step_phase hmode hinv rand) n hn
    rw [step_stepCount] at this
    have harith : e.stepCount + 1 + rest.length =
        e.stepCount + (rand :: rest).length := by
      simp only [List.length_cons]
      omega
    rw [harith] at this
    exact this

lemma smart_timer_step {e : Engine} (hmode : e.mode = .SMART)
    (h : ∀ n ∈ e.inters, n.phaseTimer < MAX_RED_STEPS)
    (rand : RoadId → Bool) :
    ∀ n ∈ (step e rand).inters, n.phaseTimer < MAX_RED_STEPS := by
  intro n hn
  rw [step_inters] at hn
  rcases List.mem_map.mp hn with ⟨m, hm, rfl⟩
  have hm' := h m hm
  have hR : MAX_RED_STEPS = 24 := rfl
  rw [hR] at hm' ⊢
  unfold updateSignal
  rw [hmode]
  simp only []
  split_ifs with h1 h2 h3 h4
  · show (0 : ℕ) < 24
    omega
  · show (0 : ℕ) < 24
    omega
  · show (0 : ℕ) < 24
    omega
  · have h1' : ¬24 ≤ m.phaseTimer + 1 := by simpa [hR] using h1
    show m.phaseTimer + 1 < 24
    omega
  · have h1' : ¬24 ≤ m.phaseTimer + 1 := by simpa [hR] using h1
    show m.phaseTimer + 1 < 24
    omega

lemma smart_timer_run : ∀ (rands : List (RoadId → Bool)) (e : Engine),
    e.mode = .SMART →
    (∀ n ∈ e.inters, n.phaseTimer < MAX_RED_STEPS) →
    ∀ n ∈ (runSteps e rands).inters, n.phaseTimer < MAX_RED_STEPS := by
  intro rands
  induction rands with
  | nil => intro e _ h; exact h
  | cons rand rest ih =>
    intro e hmode h
    exact ih (step e rand) (by rw [step_mode]; exact hmode)
      (smart_timer_step hmode h rand)

lemma mkEngine_phase_timer (rows cols : ℤ) (rate : ℚ) (mode : ControlMode) :
    ∀ n ∈ (mkEngine rows cols rate mode).inters,
      n.phase = 0 ∧ n.phaseTimer = 0 := by
  intro n hn
  exact (buildGrid_invariants rows.toNat cols.toNat).1.2 n hn


/-- `step` consumes exactly `stepTransfers e` as the tick's transfer list:
its throughput update is the list's exit amount (and its physics inputs are
the list's per-road aggregates, definitionally). -/
lemma step_transfers_spec (e : Engine) (rand : RoadId → Bool) :
    (step e rand).totalThroughput =
      e.totalThroughput + exitAmount (stepTransfers e) := rfl

/-! ### Claims -/

/-- C1: for every engine built by the constructor and advanced by any number
of `step` calls with any random draws, every cell density of every road lies
in `[0, MAX_CARS_PER_CELL]`: the physics update never exceeds capacity for
the inflow/outflow the engine routes, and no cell density is ever
negative. -/
theorem C1_cell_density_bounds (rows cols : ℤ) (rate : ℚ)
    (mode : ControlMode) (rands : List (RoadId → Bool)) :
    ∀ r ∈ (runSteps (mkEngine rows cols rate mode) rands).roads,
      ∀ x ∈ r.cells, 0 ≤ x ∧ x ≤ MAX_CARS_PER_CELL :=
  (invariant_run (mkEngine_invariant rows cols rate mode) rands).2.2

/-- Witness for C1 at a concrete run: a 1×2 grid after one tick in which a
car block was spawned; the spawned first-cell density 2 is within
bounds. -/
theorem C1_witness :
    0 ≤ (2 : ℚ) ∧ (2 : ℚ) ≤ MAX_CARS_PER_CELL :=
  C1_cell_density_bounds 1 2 1 .FIXED [fun _ => true]
    ⟨⟨.E, 0, 0⟩, (0, 0), (0, 1), [2, 0, 0, 0, 0, 0, 0, 0, 0, 0], true⟩
    (by with_unfolding_all decide) 2 (by with_unfolding_all decide)

/-- C2 counterexample: on an all-zero road with inflow 0 and outflow 1
(both non-negative), `stepPhysics` leaves the total at 0, not 0 + 0 − 1:
the clamped boundary write drops the excess outflow, so conservation as
claimed for *any* non-negative outflow is false. -/
theorem C2_counterexample :
    (stepPhysics (List.replicate 10 0) 0 1).sum = 0 ∧
    (List.replicate 10 (0 : ℚ)).sum + 0 - 1 ≠
      (stepPhysics (List.replicate 10 0) 0 1).sum := by
  constructor
  · with_unfolding_all decide
  · with_unfolding_all decide

/-- C2 (amended): one `applyFlow` pass changes the total density by exactly
inflow − outflow for every nonempty road and all inflow ≥ 0, outflow ≥ 0
with outflow ≤ last-cell density — the regime of every outflow the engine
routes, since routed outflow ≤ demand ≤ last cell. -/
theorem C2_conservation (cells : List ℚ) (fIn fOut : ℚ)
    (hne : cells ≠ []) (hin : 0 ≤ fIn) (hout : 0 ≤ fOut)
    (hle : fOut ≤ lastCell cells) :
    (stepPhysics cells fIn fOut).sum = cells.sum + fIn - fOut :=
  stepPhysics_sum cells fIn fOut hne hle

/-- Witness for C2 at a concrete road. -/
theorem C2_witness :
    (stepPhysics [1, 2] 5 2).sum = [1, (2 : ℚ)].sum + 5 - 2 :=
  C2_conservation [1, 2] 5 2 (by decide) (by norm_num) (by norm_num)
    (by decide)

/-- C3: the internal propagation of `stepPhysics` computes every flux
against the single frozen post-boundary snapshot and equals the
simultaneous-update reference `new[i] = frozen[i] − flux(i, i+1) +
flux(i−1, i)`; consequently the result is independent of the order in which
the adjacent cell pairs are processed. -/
theorem C3_frozen_simultaneous (frozen : List ℚ) :
    ctmPropagate frozen = ctmSimultaneous frozen ∧
    ∀ order : List ℕ, order.Perm (List.range (frozen.length - 1)) →
      order.foldl (ctmStep frozen) frozen = ctmPropagate frozen :=
  ⟨ctmPropagate_eq_simultaneous frozen,
   fun order h => foldl_ctmStep_order_irrelevant frozen order h⟩

/-- Witness for C3: a concrete snapshot processed in ascending instead of
the code's descending order gives the same result. -/
theorem C3_witness :
    ctmPropagate [3, 7, 0] = ctmSimultaneous [3, 7, 0] ∧
    [0, 1].foldl (ctmStep [3, 7, 0]) [3, 7, 0] = ctmPropagate [3, 7, 0] :=
  ⟨(C3_frozen_simultaneous [3, 7, 0]).1,
   (C3_frozen_simultaneous [3, 7, 0]).2 [0, 1] (by decide)⟩

/-- C4: `stepFlow` routes each incoming road of the green axis straight
through to the directly opposite outgoing road; a missing opposite road
sends the full demand to the exit sentinel with no supply cap; otherwise
the amount is min(demand, supply) and a transfer is emitted only when it is
strictly positive.  In particular (Scenario C), a 10-cell road with last
cell density 7 into an empty road transfers exactly 7 density-units in one
routeFlow+applyFlow pass. -/
theorem C4_straight_through_routing (roads : List RoadState)
    (node : InterState) (d : Dir) (rid : RoadId) (src : RoadState)
    (hd : d ∈ allowedDirs node.phase)
    (hin : node.inRoads.lookup d = some rid)
    (hfind : findRoad roads rid = some src) :
    ((node.outRoads.lookup (targetMap d) = none →
      (⟨src.id, none, getDemand src⟩ : Transfer) ∈ stepFlow roads node) ∧
     (∀ tid tgt, node.outRoads.lookup (targetMap d) = some tid →
      findRoad roads tid = some tgt →
      (0 < min (getDemand src) (getSupply tgt) →
        (⟨src.id, some tgt.id, min (getDemand src) (getSupply tgt)⟩ :
          Transfer) ∈ stepFlow roads node) ∧
      (¬0 < min (getDemand src) (getSupply tgt) →
        dirTransfer roads node d = none))) ∧
    (stepFlow [scenSrc, scenTgt] scenNode =
      [⟨scenSrc.id, some scenTgt.id, 7⟩] ∧
     (stepPhysics scenSrc.cells 0 7).sum = scenSrc.cells.sum - 7 ∧
     (stepPhysics scenTgt.cells 7 0).sum = scenTgt.cells.sum + 7) := by
  have hs : slotRoad roads node.inRoads d = some src :=
    slotRoad_eq_some.mpr ⟨rid, hin, hfind⟩
  refine ⟨⟨?_, ?_⟩, by with_unfolding_all decide,
    by with_unfolding_all decide, by with_unfolding_all decide⟩
  · intro hnone
    have hso : slotRoad roads node.outRoads (targetMap d) = none := by
      unfold slotRoad
      rw [hnone]
    refine mem_stepFlow.mpr ⟨d, hd, ?_⟩
    exact dirTransfer_eq_some.mpr ⟨src, hs, Or.inl ⟨hso, rfl⟩⟩
  · intro tid tgt hto hftgt
    have hst : slotRoad roads node.outRoads (targetMap d) = some tgt :=
      slotRoad_eq_some.mpr ⟨tid, hto, hftgt⟩
    constructor
    · intro hpos
      refine mem_stepFlow.mpr ⟨d, hd, ?_⟩
      exact dirTransfer_eq_some.mpr ⟨src, hs, Or.inr ⟨tgt, hst, hpos, rfl⟩⟩
    · intro hnpos
      unfold dirTransfer
      simp only [hs, hst]
      rw [if_neg hnpos]

/-- Witness for C4 at the Scenario C configuration. -/
theorem C4_witness :
    (⟨scenSrc.id, some scenTgt.id,
      min (getDemand scenSrc) (getSupply scenTgt)⟩ : Transfer) ∈
      stepFlow [scenSrc, scenTgt] scenNode :=
  ((C4_straight_through_routing [scenSrc, scenTgt] scenNode .N scenSrc.id
      scenSrc (by decide) (by decide) (by with_unfolding_all decide)).1.2
      scenTgt.id scenTgt (by decide) (by with_unfolding_all decide)).1
    (by with_unfolding_all decide)

/-- C5: in fixed-cycle mode every intersection's phase flips exactly every
`FIXED_CYCLE_STEPS` ticks with the timer reset to 0, independently of any
traffic state (any random draws): after n ticks the phase is
(n / cycle) mod 2 and the timer n mod cycle.  In particular (Scenario B),
on a 2×2 grid with cycle 6 and initial phase NS, the phase is EW after 6
ticks. -/
theorem C5_fixed_cycle (rows cols : ℤ) (rate : ℚ)
    (rands : List (RoadId → Bool)) :
    (∀ n ∈ (runSteps (mkEngine rows cols rate .FIXED) rands).inters,
      n.phase = (rands.length / FIXED_CYCLE_STEPS) % 2 ∧
      n.phaseTimer = rands.length % FIXED_CYCLE_STEPS) ∧
    (rands.length = FIXED_CYCLE_STEPS →
      ∀ n ∈ (runSteps (mkEngine 2 2 rate .FIXED) rands).inters,
        n.phase = 1) := by
  have hbase : ∀ (rw cl : ℤ), ∀ n ∈ (mkEngine rw cl rate .FIXED).inters,
      n.phase =
        ((mkEngine rw cl rate .FIXED).stepCount / FIXED_CYCLE_STEPS) % 2 ∧
      n.phaseTimer =
        (mkEngine rw cl rate .FIXED).stepCount % FIXED_CYCLE_STEPS := by
    intro rw cl n hn
    have h := mkEngine_phase_timer rw cl rate .FIXED n hn
    have hsc : (mkEngine rw cl rate .FIXED).stepCount = 0 := rfl
    rw [hsc, h.1, h.2]
    exact ⟨by decide, by decide⟩
  constructor
  · intro n hn
    have h := fixed_phase_char rands (mkEngine rows cols rate .FIXED) rfl
      (hbase rows cols) n hn
    have hsc : (mkEngine rows cols rate .FIXED).stepCount = 0 := rfl
    rw [hsc] at h
    simpa using h
  · intro hlen n hn
    have h := fixed_phase_char rands (mkEngine 2 2 rate .FIXED) rfl
      (hbase 2 2) n hn
    have hsc : (mkEngine 2 2 rate .FIXED).stepCount = 0 := rfl
    rw [hsc, hlen] at h
    rw [h.1]
    decide

/-- Witness for C5: the general characterization at a 1×1 grid after 6
ticks, and Scenario B on the 2×2 grid after 6 ticks. -/
theorem C5_witness :
    ((⟨(0, 0), 0, 0, [], [], 1, 0⟩ : InterState).phase =
        ((6 : ℕ) / FIXED_CYCLE_STEPS) % 2 ∧
      (⟨(0, 0), 0, 0, [], [], 1, 0⟩ : InterState).phaseTimer =
        (6 : ℕ) % FIXED_CYCLE_STEPS) ∧
    (⟨(0, 0), 0, 0,
        [(.S, ⟨.N, 0, 0⟩), (.E, ⟨.W, 0, 0⟩)],
        [(.S, ⟨.S, 0, 0⟩), (.E, ⟨.E, 0, 0⟩)], 1, 0⟩ : InterState).phase =
      1 := by
  constructor
  · have h := (C5_fixed_cycle 1 1 0
      (List.replicate 6 (fun _ => false))).1
      ⟨(0, 0), 0, 0, [], [], 1, 0⟩ (by decide)
    simpa using h
  · exact (C5_fixed_cycle 2 2 0 (List.replicate 6 (fun _ => false))).2
      (by decide) _ (by decide)


/-- C6: in adaptive (max-pressure) mode, a phase change in any step only
happens when at least `MIN_GREEN_STEPS` ticks have elapsed since the
previous change, and for every engine reachable from the constructor the
phase timer stays strictly below `MAX_RED_STEPS` after every tick, i.e. a
forced change occurs no later than `MAX_RED_STEPS` ticks after the previous
one regardless of pressure values. -/
theorem C6_min_green_max_red :
    (∀ (e : Engine) (rand : RoadId → Bool) (k : ℕ) (n n' : InterState),
      e.mode = .SMART → e.inters[k]? = some n →
      (step e rand).inters[k]? = some n' →
      n'.phase ≠ n.phase → MIN_GREEN_STEPS ≤ n.phaseTimer + 1) ∧
    (∀ (rows cols : ℤ) (rate : ℚ) (rands : List (RoadId → Bool)),
      ∀ n ∈ (runSteps (mkEngine rows cols rate .SMART) rands).inters,
        n.phaseTimer < MAX_RED_STEPS) := by
  constructor
  · intro e rand k n n' hmode hk hk' hne
    rw [step_inters, List.getElem?_map, hk, Option.map_some'] at hk'
    have hup : updateSignal e.mode e.roads n = n' := by
      injection hk'
    rw [hmode] at hup
    have hG : MIN_GREEN_STEPS = 3 := rfl
    rw [hG]
    unfold updateSignal at hup
    simp only [] at hup
    split_ifs at hup with h1 h2 h3 h4
    · have h1' : 24 ≤ n.phaseTimer + 1 := by
        simpa [show MAX_RED_STEPS = 24 from rfl] using h1
      omega
    · have h2' : 3 ≤ n.phaseTimer + 1 := by
        simpa [hG] using h2
      omega
    · have h2' : 3 ≤ n.phaseTimer + 1 := by
        simpa [hG] using h2
      omega
    · rw [← hup] at hne
      exact absurd rfl hne
    · rw [← hup] at hne
      exact absurd rfl hne
  · intro rows cols rate rands n hn
    refine smart_timer_run rands (mkEngine rows cols rate .SMART) rfl
      ?_ n hn
    intro m hm
    have h := mkEngine_phase_timer rows cols rate .SMART m hm
    rw [h.2]
    decide

/-- Witness for C6: on a 1×1 adaptive engine the forced flip at the 24th
tick changes the phase with the timer at 23, and timers of reachable states
stay below the maximum-red threshold. -/
theorem C6_witness :
    MIN_GREEN_STEPS ≤ 23 + 1 ∧
    (⟨(0, 0), 0, 0, [], [], 0, 23⟩ : InterState).phaseTimer <
      MAX_RED_STEPS := by
  constructor
  · exact C6_min_green_max_red.1
      (runSteps (mkEngine 1 1 0 .SMART) (List.replicate 23 (fun _ => false)))
      (fun _ => false) 0 ⟨(0, 0), 0, 0, [], [], 0, 23⟩
      ⟨(0, 0), 0, 0, [], [], 1, 0⟩
      (by rw [runSteps_mode]; rfl) (by with_unfolding_all decide)
      (by with_unfolding_all decide) (by decide)
  · exact C6_min_green_max_red.2 1 1 0
      (List.replicate 23 (fun _ => false))
      ⟨(0, 0), 0, 0, [], [], 0, 23⟩ (by with_unfolding_all decide)

/-- C7: `getPressure` returns exactly the pair of floored axis pressures of
the spec — for each axis the sum over the existing incoming roads of their
queued load minus half the total cars of the opposing outgoing road (a
missing direction contributing nothing), floored at 0.1 — and both
components are always at least 0.1. -/
theorem C7_pressure_formula (roads : List RoadState) (node : InterState) :
    getPressure roads node = pressureSpec roads node ∧
    (1/10 : ℚ) ≤ (getPressure roads node).1 ∧
    (1/10 : ℚ) ≤ (getPressure roads node).2 := by
  refine ⟨?_, ?_, ?_⟩
  · unfold getPressure pressureSpec pairContribution
    simp only [List.map_cons, List.map_nil, List.sum_cons, List.sum_nil,
      add_zero, targetMap]
    rcases slotRoad roads node.inRoads .N with _ | r1 <;>
      rcases slotRoad roads node.outRoads .S with _ | r2 <;>
      rcases slotRoad roads node.inRoads .S with _ | r3 <;>
      rcases slotRoad roads node.outRoads .N with _ | r4 <;>
      rcases slotRoad roads node.inRoads .E with _ | r5 <;>
      rcases slotRoad roads node.outRoads .W with _ | r6 <;>
      rcases slotRoad roads node.inRoads .W with _ | r7 <;>
      rcases slotRoad roads node.outRoads .E with _ | r8 <;>
      · rw [Prod.mk.injEq]
        constructor <;> congr 1 <;> ring
  · unfold getPressure
    simp only []
    exact le_max_left _ _
  · unfold getPressure
    simp only []
    exact le_max_left _ _

/-- C8 counterexample: construction performs no validation — an entry
probability of 3/2 (outside [0,1]) is stored verbatim while the full 2×2
grid is built, and rows = −3 merely yields an engine with empty collections
instead of failing. -/
theorem C8_counterexample :
    (mkEngine 2 2 (3/2) .FIXED).inflowRate = 3/2 ∧
    ¬((3 : ℚ)/2 ≤ 1) ∧
    (mkEngine 2 2 (3/2) .FIXED).roads.length = 8 ∧
    (mkEngine (-3) 2 (1/2) .FIXED).inters = [] := by
  refine ⟨rfl, by norm_num, by decide, by decide⟩

/-- C8 (amended): the constructor never fails: it stores all four
parameters verbatim for any values, and non-positive row or column counts
simply produce an engine with no intersections and no roads (the loops of
`buildGrid` do not execute), rather than a construction-time error. -/
theorem C8_no_validation (rows cols : ℤ) (rate : ℚ) (mode : ControlMode) :
    ((mkEngine rows cols rate mode).rows = rows ∧
     (mkEngine rows cols rate mode).cols = cols ∧
     (mkEngine rows cols rate mode).inflowRate = rate ∧
     (mkEngine rows cols rate mode).mode = mode) ∧
    (rows ≤ 0 ∨ cols ≤ 0 →
      (mkEngine rows cols rate mode).inters = [] ∧
      (mkEngine rows cols rate mode).roads = []) := by
  refine ⟨⟨rfl, rfl, rfl, rfl⟩, ?_⟩
  intro h
  have hgp : gridPairs rows.toNat cols.toNat = [] := by
    rcases h with h | h
    · have h0 : rows.toNat = 0 := by omega
      rw [h0]
      rfl
    · have h0 : cols.toNat = 0 := by omega
      rw [h0]
      unfold gridPairs
      simp
  constructor
  · show (buildGrid rows.toNat cols.toNat).1 = []
    unfold buildGrid initInters
    rw [hgp]
    rfl
  · show (buildGrid rows.toNat cols.toNat).2 = []
    unfold buildGrid initInters
    rw [hgp]
    rfl

/-- Witness for C8 at a concrete invalid dimension. -/
theorem C8_witness :
    (mkEngine (-1) 3 (1/2) .FIXED).inters = [] ∧
    (mkEngine (-1) 3 (1/2) .FIXED).roads = [] :=
  (C8_no_validation (-1) 3 (1/2) .FIXED).2 (Or.inl (by norm_num))

/-- C9: in every tick of `step()` on any engine reachable from the
constructor, each road appears as the source of at most one transfer and as
the destination of at most one transfer of the tick's collected transfer
list, so the per-road aggregation is order-independent. -/
theorem C9_transfer_uniqueness (rows cols : ℤ) (rate : ℚ)
    (mode : ControlMode) (rands : List (RoadId → Bool)) (rid : RoadId) :
    ((stepTransfers (runSteps (mkEngine rows cols rate mode) rands)).countP
      (fun t => t.src == rid) ≤ 1) ∧
    ((stepTransfers (runSteps (mkEngine rows cols rate mode) rands)).countP
      (fun t => t.tgt == some rid) ≤ 1) := by
  have hinv := invariant_run (mkEngine_invariant rows cols rate mode) rands
  have hw := signal_wired hinv.1
  exact ⟨tickTransfers_countP_src _ _ hw rid,
    tickTransfers_countP_tgt _ _ hw rid⟩

/-- C10: the evolution of the simulation under `step` does not depend on
the roads' `isBoundary` flags: engines whose states differ only in those
flags produce identical cell densities, phases, timers, tick counts and
throughput after any number of steps with identical random draws; and the
flag is merely copied into snapshots. -/
theorem C10_boundary_flags_inert :
    (∀ (e1 e2 : Engine) (rands : List (RoadId → Bool)),
      stripB e1 = stripB e2 →
      stripB (runSteps e1 rands) = stripB (runSteps e2 rands)) ∧
    (∀ e : Engine, (getSnapshot e).roads.map RoadData.isBoundary =
      e.roads.map RoadState.isBoundary) := by
  constructor
  · intro e1 e2 rands
    induction rands generalizing e1 e2 with
    | nil => exact id
    | cons rand rest ih =>
      intro h
      apply ih
      show stripB (step e1 rand) = stripB (step e2 rand)
      rw [← step_stripB, ← step_stripB, h]
  · intro e
    unfold getSnapshot
    simp only []
    rw [List.map_map]
    rfl

/-- Witness for C10: a 1×2 engine and its flag-flipped copy evolve to
flag-identical states after a tick with a spawn. -/
theorem C10_witness :
    stripB (runSteps (mkEngine 1 2 1 .FIXED) [fun _ => true]) =
      stripB (runSteps
        { mkEngine 1 2 1 .FIXED with
          roads := (mkEngine 1 2 1 .FIXED).roads.map
            (fun r => { r with isBoundary := !r.isBoundary }) }
        [fun _ => true]) :=
  C10_boundary_flags_inert.1 _ _ _ (by with_unfolding_all decide)

end Traffic
